import Mathlib

/-!
JOY BUS link driver (src/gba/sio/dolphin.c)

A shallow embedding of the Dolphin serial-link driver of mGBA and the
properties of its register-write interception, command dispatch,
cycle-budget scheduling and connection lifecycle.

Conventions of the embedding.

* `uint16_t` and `uint8_t` values are natural numbers; every store into such a
  location truncates with `% 65536` or `% 256`.
* C `int` expressions that use `~` are evaluated on the 32-bit two's-complement
  bit pattern (`not32`).
* The `int32_t` counters `nextEvent` and `clockSlice` are integers kept in range:
  every store into them converts with `wrap32`, the two's-complement wrap-around
  of the compiled code (signed overflow itself is undefined in C).  `InRange32`
  and `CallExact` say that a value fits and that a call does not overflow.
* Calls into code outside dolphin.c (`SocketSend`, `SocketRecv`, `SocketPoll`,
  `SocketClose`, `SocketConnectTCP`, `SocketSetBlocking`, `SocketSetTCPPush`,
  `GBARaiseIRQ`) are recorded in an event trace; what the sockets deliver and
  what the opens return is an input of the model.
* The `short` port parameters are integers; an assignment into them converts
  with `toInt16`.
-/

namespace Dolphin

/-! ## Machine integers -/

/-- Conversion of a C value to `uint16_t`. -/
def u16 (x : Nat) : Nat := x % 65536

/-- Conversion of a C value to `uint8_t`. -/
def u8 (x : Nat) : Nat := x % 256

/-- The C operator `~` on the bit pattern of a 32-bit `int`. -/
def not32 (x : Nat) : Nat := (2 ^ 32 - 1) ^^^ x

/-- Reinterpretation of a 32-bit pattern as `int32_t`. -/
def toInt32 (x : Nat) : Int :=
  if x % 2 ^ 32 < 2 ^ 31 then ((x % 2 ^ 32 : Nat) : Int) else ((x % 2 ^ 32 : Nat) : Int) - 2 ^ 32

/-- Conversion of a C value to `int32_t`: two's-complement wrap-around. -/
def wrap32 (x : Int) : Int := (x + 2147483648) % 4294967296 - 2147483648

/-- The value fits `int32_t`. -/
def InRange32 (x : Int) : Prop := -2147483648 ≤ x ∧ x ≤ 2147483647

instance (x : Int) : Decidable (InRange32 x) := by
  unfold InRange32; infer_instance

/-! ## Constants of dolphin.c -/

def CYCLES_PER_BIT : Int := 75

def CLOCK_GRAIN : Int := CYCLES_PER_BIT * 8

def DOLPHIN_CLOCK_PORT : Nat := 49420

def DOLPHIN_DATA_PORT : Nat := 54970

def CMD_RESET : Nat := 0xFF

def CMD_POLL : Nat := 0x00

def CMD_TRANS : Nat := 0x14

def CMD_RECV : Nat := 0x15

def CMD_NONE : Nat := 0x80

/-! ## Register addresses

The byte offsets `REG_*` come from gba/io.h, which is not part of the sources
at hand; they are a parameter of the model.  The register file `memory.io` is
an array of halfwords, indexed by `REG_* >> 1`. -/

/-- Byte offsets of the six JOY BUS registers inside the I/O block. -/
structure RegMap where
  REG_JOYCNT : Nat
  REG_JOY_RECV_LO : Nat
  REG_JOY_RECV_HI : Nat
  REG_JOY_TRANS_LO : Nat
  REG_JOY_TRANS_HI : Nat
  REG_JOYSTAT : Nat
deriving Repr, DecidableEq

namespace RegMap

/-- Halfword index `REG_JOYCNT >> 1`. -/
def joycnt (R : RegMap) : Nat := R.REG_JOYCNT >>> 1

/-- Halfword index `REG_JOY_RECV_LO >> 1`. -/
def recvLo (R : RegMap) : Nat := R.REG_JOY_RECV_LO >>> 1

/-- Halfword index `REG_JOY_RECV_HI >> 1`. -/
def recvHi (R : RegMap) : Nat := R.REG_JOY_RECV_HI >>> 1

/-- Halfword index `REG_JOY_TRANS_LO >> 1`. -/
def transLo (R : RegMap) : Nat := R.REG_JOY_TRANS_LO >>> 1

/-- Halfword index `REG_JOY_TRANS_HI >> 1`. -/
def transHi (R : RegMap) : Nat := R.REG_JOY_TRANS_HI >>> 1

/-- Halfword index `REG_JOYSTAT >> 1`. -/
def joystat (R : RegMap) : Nat := R.REG_JOYSTAT >>> 1

/-- The six registers occupy six different halfwords of the I/O block. -/
def Distinct (R : RegMap) : Prop :=
  [R.joycnt, R.recvLo, R.recvHi, R.transLo, R.transHi, R.joystat].Nodup

instance (R : RegMap) : Decidable R.Distinct := by
  unfold Distinct; infer_instance

end RegMap

/-- The layout of the GBA I/O block (JOYCNT at 0x140, JOY_RECV at 0x150,
JOY_TRANS at 0x154, JOYSTAT at 0x158), used for concrete evaluations. -/
def gbaRegs : RegMap :=
  { REG_JOYCNT := 0x140, REG_JOY_RECV_LO := 0x150, REG_JOY_RECV_HI := 0x152,
    REG_JOY_TRANS_LO := 0x154, REG_JOY_TRANS_HI := 0x156, REG_JOYSTAT := 0x158 }

/-! ## Driver state -/

/-- The fields of `struct GBASIODolphin` together with the register file
`d.p->p->memory.io` reached through the driver's back reference. -/
structure GBASIODolphin where
  /-- Register file `memory.io`, by halfword index. -/
  io : Nat → Nat
  /-- Data socket handle. -/
  data : Int
  /-- Clock socket handle. -/
  clock : Int
  nextEvent : Int
  clockSlice : Int

/-- Every halfword of the register file holds a `uint16_t`. -/
def GBASIODolphin.WellTyped (dol : GBASIODolphin) : Prop := ∀ i, dol.io i < 65536

/-- Store into `memory.io[i]`, with the conversion to `uint16_t`. -/
def ioStore (io : Nat → Nat) (i v : Nat) : Nat → Nat :=
  fun j => if j = i then u16 v else io j

/-- Calls that leave dolphin.c, in the order they are made. -/
inductive Event where
  /-- Call `SocketSend(sock, buffer, n)` with the `n` bytes handed over. -/
  | send (sock : Int) (bytes : List Nat)
  /-- Call `SocketRecv(sock, buffer, size)`. -/
  | recv (sock : Int) (size : Nat)
  /-- Call `SocketPoll(1, &sock, 0, 0, 1)`. -/
  | poll (sock : Int)
  /-- Call `GBARaiseIRQ(gba, IRQ_SIO)`. -/
  | irq
  /-- Call `SocketClose(sock)`. -/
  | close (sock : Int)
  /-- Call `SocketConnectTCP(port, address)`, with the `int` value of `port`. -/
  | connectTCP (port : Int)
  /-- Call `SocketSetBlocking(sock, flag)`. -/
  | setBlocking (sock : Int) (flag : Bool)
  /-- Call `SocketSetTCPPush(sock, flag)`. -/
  | setTCPPush (sock : Int) (flag : Bool)
deriving Repr, DecidableEq

/-- Result of a driver entry point: the state afterwards, the external calls
made and the C return value. -/
structure Outcome (α : Type) where
  dol : GBASIODolphin
  trace : List Event
  ret : α

/-- Bytes handed to `SocketSend` on socket `sock`, one list per call. -/
def sentOn (sock : Int) : List Event → List (List Nat)
  | [] => []
  | Event.send s bytes :: rest => if s = sock then bytes :: sentOn sock rest else sentOn sock rest
  | _ :: rest => sentOn sock rest

/-- Number of `GBARaiseIRQ` calls in a trace. -/
def irqCount (tr : List Event) : Nat := tr.count Event.irq

/-- Number of `SocketRecv` and `SocketPoll` calls in a trace. -/
def readCount : List Event → Nat
  | [] => 0
  | Event.recv _ _ :: rest => readCount rest + 1
  | Event.poll _ :: rest => readCount rest + 1
  | _ :: rest => readCount rest

/-! ## Register-write interception -/

/-- Embedding of `GBASIODolphinWriteRegister`. -/
def GBASIODolphinWriteRegister (R : RegMap) (dol : GBASIODolphin) (address value : Nat) :
    Outcome Nat :=
  if address = R.REG_JOYCNT then
    { dol := dol, trace := [],
      ret := u16 ((value &&& 0x0040) |||
        (dol.io R.joycnt &&& not32 (value &&& 0x7) &&& not32 0x0040)) }
  else if address = R.REG_JOYSTAT then
    { dol := dol, trace := [],
      ret := u16 ((value &&& 0x0030) ||| (dol.io R.joystat &&& not32 0x30)) }
  else if address = R.REG_JOY_TRANS_LO ∨ address = R.REG_JOY_TRANS_HI then
    { dol := { dol with io := ioStore dol.io R.joystat (dol.io R.joystat ||| 8) },
      trace := [], ret := value }
  else
    { dol := dol, trace := [], ret := value }

/-! ## Command dispatch -/

/-- Contents of the local `buffer` after `SocketRecv(dol->data, &buffer, size)`
delivered the bytes `got`: the first bytes are overwritten, the rest keeps what
was there before (`buffer` is an uninitialised local, so that is arbitrary). -/
def recvInto (buffer0 : Nat → Nat) (got : List Nat) (size : Nat) : Nat → Nat :=
  fun i => if i < (got.take size).length then u8 (got.getD i 0) else u8 (buffer0 i)

/-- The conditional `GBARaiseIRQ(dol->d.p->p, IRQ_SIO)` guarded by
`memory.io[REG_JOYCNT >> 1] & 0x40`. -/
def raiseIfEnabled (R : RegMap) (io : Nat → Nat) : List Event :=
  if io R.joycnt &&& 0x40 ≠ 0 then [Event.irq] else []

/-- The shared tail of `CMD_RESET` and `CMD_POLL`: the three-byte answer and
`bitsOnLine += 24 + 1`. -/
def pollResponse (R : RegMap) (dol : GBASIODolphin) (before : List Event) : Outcome Int :=
  { dol := dol,
    trace := before ++ [Event.send dol.data [0x00, 0x04, u8 (dol.io R.joystat)]],
    ret := (8 + 1 + (24 + 1)) * CYCLES_PER_BIT }

/-- Embedding of `_processCommand`.  `buffer0` is the indeterminate initial
content of the local `buffer`, `payload` the bytes that the `SocketRecv` of the
`CMD_RECV` case delivers (at most four are taken). -/
def _processCommand (R : RegMap) (dol : GBASIODolphin) (command : Nat)
    (buffer0 : Nat → Nat) (payload : List Nat) : Outcome Int :=
  if command = CMD_RESET then
    let io1 := ioStore dol.io R.joycnt (dol.io R.joycnt ||| 1)
    pollResponse R { dol with io := io1 } (raiseIfEnabled R io1)
  else if command = CMD_POLL then
    pollResponse R dol []
  else if command = CMD_RECV then
    let io1 := ioStore dol.io R.joycnt (dol.io R.joycnt ||| 2)
    let io2 := ioStore io1 R.joystat (io1 R.joystat ||| 2)
    let buffer := recvInto buffer0 payload 4
    let io3 := ioStore io2 R.recvLo (buffer 0 ||| (buffer 1 <<< 8))
    let io4 := ioStore io3 R.recvHi (buffer 2 ||| (buffer 3 <<< 8))
    { dol := { dol with io := io4 },
      trace := [Event.recv dol.data 4, Event.send dol.data [u8 (io4 R.joystat)]]
        ++ raiseIfEnabled R io4,
      ret := (8 + 1 + (40 + 1)) * CYCLES_PER_BIT }
  else if command = CMD_TRANS then
    let io1 := ioStore dol.io R.joycnt (dol.io R.joycnt ||| 4)
    let io2 := ioStore io1 R.joystat (io1 R.joystat &&& not32 8)
    { dol := { dol with io := io2 },
      trace := [Event.send dol.data
          [u8 (io2 R.transLo), u8 (io2 R.transLo >>> 8),
           u8 (io2 R.transHi), u8 (io2 R.transHi >>> 8),
           u8 (io2 R.joystat)]]
        ++ raiseIfEnabled R io2,
      ret := (8 + 1 + (40 + 1)) * CYCLES_PER_BIT }
  else
    { dol := dol, trace := [], ret := (8 + 1) * CYCLES_PER_BIT }

/-! ## Cycle-budget scheduling -/

/-- Embedding of `GBASIODolphinLoad`. -/
def GBASIODolphinLoad (dol : GBASIODolphin) : Outcome Bool :=
  { dol := { dol with nextEvent := 0, clockSlice := 0 }, trace := [], ret := true }

/-- What the outside world delivers during one `GBASIODolphinProcessEvents`
call.  A socket read is described by the bytes it delivers; its C return value
is their number (an error return and an empty read are both the empty list,
the code only compares the return value with 1 and with 4). -/
structure Env where
  /-- Whether `SocketPoll` on the clock socket returns 1. -/
  clockReadable : Bool
  /-- Bytes available to `SocketRecv(dol->clock, &clockSlice, 4)`. -/
  clockBytes : List Nat
  /-- Bytes available to `SocketRecv(dol->data, &command, 1)`. -/
  commandBytes : List Nat
  /-- Indeterminate initial content of the `buffer` of `_processCommand`. -/
  buffer0 : Nat → Nat
  /-- Bytes available to the `SocketRecv` of the `CMD_RECV` case. -/
  payload : List Nat

/-- Value of `ntohl(clockSlice)` as `int32_t` after the four bytes `got` were
received into `clockSlice`: the bytes in network (big-endian) order. -/
def ntohl (got : List Nat) : Int :=
  toInt32 (u8 (got.getD 0 0) * 2 ^ 24 + u8 (got.getD 1 0) * 2 ^ 16
    + u8 (got.getD 2 0) * 2 ^ 8 + u8 (got.getD 3 0))

/-- The clock-slice refill of `GBASIODolphinProcessEvents` (the block guarded by
`dol->clockSlice <= 0`). -/
def refillClock (dol : GBASIODolphin) (env : Env) : GBASIODolphin × List Event :=
  if dol.clockSlice ≤ 0 then
    if env.clockReadable then
      if (env.clockBytes.take 4).length = 4 then
        ({ dol with clockSlice := wrap32 (dol.clockSlice + ntohl (env.clockBytes.take 4)) },
          [Event.poll dol.clock, Event.recv dol.clock 4])
      else (dol, [Event.poll dol.clock, Event.recv dol.clock 4])
    else (dol, [Event.poll dol.clock])
  else (dol, [])

/-- The data-socket read of `GBASIODolphinProcessEvents` with the dispatch of the
command or the idle grain. -/
def readCommand (R : RegMap) (dol : GBASIODolphin) (env : Env) : GBASIODolphin × List Event :=
  if (env.commandBytes.take 1).length = 1 then
    let o := _processCommand R dol (u8 (env.commandBytes.getD 0 0)) env.buffer0 env.payload
    ({ o.dol with nextEvent := wrap32 (o.dol.nextEvent + o.ret) },
      Event.recv dol.data 1 :: o.trace)
  else
    ({ dol with nextEvent := wrap32 (dol.nextEvent + CLOCK_GRAIN) }, [Event.recv dol.data 1])

/-- Embedding of `GBASIODolphinProcessEvents`. -/
def GBASIODolphinProcessEvents (R : RegMap) (dol : GBASIODolphin) (cycles : Int) (env : Env) :
    Outcome Int :=
  let dol1 := { dol with nextEvent := wrap32 (dol.nextEvent - cycles),
                         clockSlice := wrap32 (dol.clockSlice - cycles) }
  if dol1.nextEvent ≤ 0 then
    let r2 := refillClock dol1 env
    let r3 := readCommand R r2.1 env
    let dol4 := if r3.1.nextEvent > r3.1.clockSlice
      then { r3.1 with nextEvent := r3.1.clockSlice } else r3.1
    { dol := dol4, trace := r2.2 ++ r3.2, ret := dol4.nextEvent }
  else
    { dol := dol1, trace := [], ret := dol1.nextEvent }

/-- The clamp that ends the processing path of `GBASIODolphinProcessEvents`, on its
own. -/
def clamp (dol : GBASIODolphin) : GBASIODolphin :=
  if dol.nextEvent > dol.clockSlice then { dol with nextEvent := dol.clockSlice } else dol

/-- Successive `GBASIODolphinProcessEvents` calls, one per element of `calls`
(the elapsed cycles and what the sockets deliver), with the outcome of each. -/
def runEvents (R : RegMap) (dol : GBASIODolphin) : List (Int × Env) → List (Outcome Int)
  | [] => []
  | (cycles, env) :: rest =>
    let o := GBASIODolphinProcessEvents R dol cycles env
    o :: runEvents R o.dol rest

/-- No store of one `GBASIODolphinProcessEvents` call overflows `int32_t`: the two
subtractions fit and, when the processing path is taken, so do the sum with the
grant (when one is applied) and the sum with the command cost or the idle grain. -/
def CallExact (R : RegMap) (dol : GBASIODolphin) (cycles : Int) (env : Env) : Prop :=
  InRange32 (dol.nextEvent - cycles) ∧ InRange32 (dol.clockSlice - cycles) ∧
  (dol.nextEvent - cycles ≤ 0 →
    InRange32 (dol.clockSlice - cycles
      + (if dol.clockSlice - cycles ≤ 0 ∧ env.clockReadable = true
            ∧ (env.clockBytes.take 4).length = 4
         then ntohl (env.clockBytes.take 4) else 0)) ∧
    InRange32 (dol.nextEvent - cycles + (match env.commandBytes with
      | cmd :: _ => (_processCommand R dol (u8 cmd) env.buffer0 env.payload).ret
      | [] => CLOCK_GRAIN)))

instance (R : RegMap) (dol : GBASIODolphin) (cycles : Int) (env : Env) :
    Decidable (CallExact R dol cycles env) := by
  unfold CallExact; infer_instance

/-- No call of the sequence overflows: `CallExact` holds at every call, from the
state the calls before it leave. -/
def RunExact (R : RegMap) : GBASIODolphin → List (Int × Env) → Prop
  | _, [] => True
  | dol, (cycles, env) :: rest =>
    CallExact R dol cycles env ∧
      RunExact R (GBASIODolphinProcessEvents R dol cycles env).dol rest

/-- The case-specific `extraBits` of the cost formula, as the specification
lists them: 24 + 1 for Reset and Poll, 40 + 1 for Recv and Trans, none
otherwise. -/
def extraBits (command : Nat) : Int :=
  if command = 0xFF ∨ command = 0x00 then 24 + 1
  else if command = 0x15 ∨ command = 0x14 then 40 + 1
  else 0

/-! ## Connection lifecycle

`Socket`, `INVALID_SOCKET` and `SOCKET_FAILED` come from util/socket.h, which is
not part of the sources at hand; the handle type is taken to be an integer and the
constant and the macro are a parameter of the model. -/

/-- The socket constant and macro used by dolphin.c. -/
structure SocketLib where
  INVALID_SOCKET : Int
  SOCKET_FAILED : Int → Bool

/-- The POSIX reading: `INVALID_SOCKET` is -1 and a handle has failed when it is
negative; used for concrete evaluations. -/
def posixSockets : SocketLib :=
  { INVALID_SOCKET := -1, SOCKET_FAILED := fun s => decide (s < 0) }

/-- Conversion of a C value to `short` (16-bit two's complement). -/
def toInt16 (x : Int) : Int :=
  if x % 2 ^ 16 < 2 ^ 15 then x % 2 ^ 16 else x % 2 ^ 16 - 2 ^ 16

/-- The block `if (!SOCKET_FAILED(sock)) { SocketClose(sock); sock = INVALID_SOCKET; }`:
the handle afterwards and the call made. -/
def closeIfOpen (S : SocketLib) (sock : Int) : Int × List Event :=
  if S.SOCKET_FAILED sock = false then (S.INVALID_SOCKET, [Event.close sock]) else (sock, [])

/-- Embedding of `GBASIODolphinCreate` (the function pointers of the driver
interface are not part of the state). -/
def GBASIODolphinCreate (S : SocketLib) (dol : GBASIODolphin) : Outcome Unit :=
  { dol := { dol with data := S.INVALID_SOCKET, clock := S.INVALID_SOCKET },
    trace := [], ret := () }

/-- Embedding of `GBASIODolphinDestroy`. -/
def GBASIODolphinDestroy (S : SocketLib) (dol : GBASIODolphin) : Outcome Unit :=
  let d := closeIfOpen S dol.data
  let c := closeIfOpen S dol.clock
  { dol := { dol with data := d.1, clock := c.1 }, trace := d.2 ++ c.2, ret := () }

/-- Embedding of `GBASIODolphinConnect`.  `dataPort` and `clockPort` are the `short`
arguments; `dataOpen` and `clockOpen` are the handles that the first and the second
`SocketConnectTCP` call return (the second is only consulted when the call is
made).  The address argument is passed through unchanged and left out. -/
def GBASIODolphinConnect (S : SocketLib) (dol : GBASIODolphin) (dataPort clockPort : Int)
    (dataOpen clockOpen : Int) : Outcome Bool :=
  let d := closeIfOpen S dol.data
  let dataPort1 := if dataPort = 0 then toInt16 DOLPHIN_DATA_PORT else dataPort
  let c := closeIfOpen S dol.clock
  let clockPort1 := if clockPort = 0 then toInt16 DOLPHIN_CLOCK_PORT else clockPort
  let tr1 := d.2 ++ c.2 ++ [Event.connectTCP dataPort1]
  if S.SOCKET_FAILED dataOpen then
    { dol := { dol with data := dataOpen, clock := c.1 }, trace := tr1, ret := false }
  else
    let tr2 := tr1 ++ [Event.connectTCP clockPort1]
    if S.SOCKET_FAILED clockOpen then
      { dol := { dol with data := S.INVALID_SOCKET, clock := clockOpen },
        trace := tr2 ++ [Event.close dataOpen], ret := false }
    else
      { dol := { dol with data := dataOpen, clock := clockOpen },
        trace := tr2 ++ [Event.setBlocking dataOpen false, Event.setBlocking clockOpen false,
          Event.setTCPPush dataOpen true],
        ret := true }

/-- The TCP port that a port argument designates: a port is a 16-bit number, so it is
the 16-bit pattern of the `short` read as unsigned. -/
def portNumber (port : Int) : Int := port % 65536

/-- The `SocketConnectTCP` calls of a trace, by port value, in order. -/
def connectPorts : List Event → List Int
  | [] => []
  | Event.connectTCP port :: rest => port :: connectPorts rest
  | _ :: rest => connectPorts rest

/-- The `SocketClose` calls of a trace, by handle, in order. -/
def closedSockets : List Event → List Int
  | [] => []
  | Event.close sock :: rest => sock :: closedSockets rest
  | _ :: rest => closedSockets rest

/-! ## Reference algorithm of the specification (section 4.3) -/

/-- Everything the sockets deliver is a byte. -/
def Env.Bytes (env : Env) : Prop :=
  (∀ b ∈ env.clockBytes, b < 256) ∧ (∀ b ∈ env.commandBytes, b < 256) ∧
    (∀ b ∈ env.payload, b < 256)

/-- No grant arrives: the clock socket is not readable or a four-byte read on it
delivers fewer than four bytes. -/
def Env.NoGrant (env : Env) : Prop :=
  env.clockReadable = false ∨ (env.clockBytes.take 4).length < 4

/-- The big-endian signed 32-bit value of four bytes, in the words of the
specification. -/
def bigEndianInt32 (bytes : List Nat) : Int :=
  let u : Int := (((bytes.getD 0 0 : Nat) * 256 + (bytes.getD 1 0 : Nat)) * 256
    + (bytes.getD 2 0 : Nat)) * 256 + (bytes.getD 3 0 : Nat)
  if u < 2 ^ 31 then u else u - 2 ^ 32

/-- The cost of a command in the words of the specification:
`(8 + 1 + extraBits) × cyclesPerBit` with 75 cycles per bit. -/
def specCost (command : Nat) : Int := (8 + 1 + extraBits command) * 75

/-- The scheduling step in the words of the specification, on the counters
`n = nextEventCountdown` and `s = clockSliceRemaining` with `c` elapsed cycles: the
value returned and the two counters afterwards. -/
def specProcessEvents (n s c : Int) (env : Env) : Int × Int × Int :=
  let n1 := n - c
  let s1 := s - c
  if n1 > 0 then (n1, n1, s1)
  else
    let delivered := env.clockBytes.take 4
    let s2 := if s1 ≤ 0 ∧ env.clockReadable = true ∧ delivered.length = 4
      then s1 + bigEndianInt32 delivered else s1
    let n2 := match env.commandBytes with
      | cmd :: _ => n1 + specCost cmd
      | [] => n1 + 8 * 75
    (min n2 s2, min n2 s2, s2)

instance (env : Env) : Decidable env.Bytes := by
  unfold Env.Bytes; infer_instance

instance (env : Env) : Decidable env.NoGrant := by
  unfold Env.NoGrant; infer_instance

/-- A concrete driver state over the GBA layout: JOYCNT = 0x47, JOYSTAT = 0x20,
JOY_TRANS = 0x5678_1234, sockets 3 and 4. -/
def sampleDol : GBASIODolphin :=
  { io := fun i =>
      if i = 0xA0 then 0x47 else if i = 0xAC then 0x20
      else if i = 0xAA then 0x1234 else if i = 0xAB then 0x5678 else 0,
    data := 3, clock := 4, nextEvent := 0, clockSlice := 0 }

/-- A clock socket that delivers one grant of 1000 cycles (bytes 00 00 03 E8) while
the data socket is idle. -/
def grant1000 : Env :=
  { clockReadable := true, clockBytes := [0x00, 0x00, 0x03, 0xE8], commandBytes := [],
    buffer0 := fun _ => 0, payload := [] }

/-- Both sockets idle: the clock socket is not readable and the data socket has no
byte. -/
def idleEnv : Env :=
  { clockReadable := false, clockBytes := [], commandBytes := [],
    buffer0 := fun _ => 0, payload := [] }

/-- A clock socket that is readable but delivers only three bytes, with the data
socket idle. -/
def shortClock : Env :=
  { clockReadable := true, clockBytes := [0x00, 0x00, 0x03], commandBytes := [],
    buffer0 := fun _ => 0, payload := [] }

/-- A Reset command on the data socket together with a grant of 1000 cycles. -/
def resetEnv : Env :=
  { clockReadable := true, clockBytes := [0x00, 0x00, 0x03, 0xE8], commandBytes := [0xFF],
    buffer0 := fun _ => 0, payload := [] }

/-- A clock socket that delivers the grant 80 00 00 00, the smallest `int32_t`, while
the data socket is idle. -/
def grantMin : Env :=
  { clockReadable := true, clockBytes := [0x80, 0x00, 0x00, 0x00], commandBytes := [],
    buffer0 := fun _ => 0, payload := [] }

/-- The state reached from `GBASIODolphinLoad` by one call with no elapsed cycles that
receives the grant `grantMin`: both counters stand at the smallest `int32_t`. -/
def minDol : GBASIODolphin :=
  (GBASIODolphinProcessEvents gbaRegs (GBASIODolphinLoad sampleDol).dol 0 grantMin).dol

/-! ## Bit-level lemmas -/

theorem testBit_u16 (x i : Nat) : (u16 x).testBit i = (decide (i < 16) && x.testBit i) := by
  have h : (65536 : Nat) = 2 ^ 16 := by norm_num
  unfold u16
  rw [h, Nat.testBit_mod_two_pow]

theorem testBit_u8 (x i : Nat) : (u8 x).testBit i = (decide (i < 8) && x.testBit i) := by
  have h : (256 : Nat) = 2 ^ 8 := by norm_num
  unfold u8
  rw [h, Nat.testBit_mod_two_pow]

theorem testBit_not32 (x i : Nat) : (not32 x).testBit i = (decide (i < 32) ^^ x.testBit i) := by
  unfold not32
  rw [Nat.testBit_xor, Nat.testBit_two_pow_sub_one]

theorem testBit_pow (k i : Nat) : (2 ^ k).testBit i = decide (i = k) := by
  rw [Nat.testBit_two_pow]
  simp [eq_comm]

theorem testBit_1 (i : Nat) : (1 : Nat).testBit i = decide (i = 0) := testBit_pow 0 i

theorem testBit_2 (i : Nat) : (2 : Nat).testBit i = decide (i = 1) := testBit_pow 1 i

theorem testBit_4 (i : Nat) : (4 : Nat).testBit i = decide (i = 2) := testBit_pow 2 i

theorem testBit_8 (i : Nat) : (8 : Nat).testBit i = decide (i = 3) := testBit_pow 3 i

theorem testBit_0x40 (i : Nat) : (0x40 : Nat).testBit i = decide (i = 6) := testBit_pow 6 i

theorem testBit_7 (i : Nat) : (7 : Nat).testBit i = decide (i < 3) :=
  Nat.testBit_two_pow_sub_one 3 i

theorem testBit_0x30 (i : Nat) : (0x30 : Nat).testBit i = (decide (i = 4) || decide (i = 5)) := by
  have h : (0x30 : Nat) = 2 ^ 4 ||| 2 ^ 5 := by decide
  rw [h, Nat.testBit_or, testBit_pow, testBit_pow]

theorem testBit_high {p i : Nat} (hp : p < 65536) (hi : 16 ≤ i) : p.testBit i = false := by
  apply Nat.testBit_lt_two_pow
  calc p < 2 ^ 16 := by simpa using hp
    _ ≤ 2 ^ i := Nat.pow_le_pow_right (by norm_num) hi

theorem u16_of_lt {x : Nat} (h : x < 65536) : u16 x = x := Nat.mod_eq_of_lt h

theorem u16_lt (x : Nat) : u16 x < 65536 := Nat.mod_lt _ (by norm_num)

theorem u8_lt (x : Nat) : u8 x < 256 := Nat.mod_lt _ (by norm_num)

/-! ## Register-write interception: properties -/

/-- Claim C1.  A write of `v` to JOYCNT over the stored value `p` returns `r` with
bit 6 taken from `v`, each of bits 0 to 2 cleared where `v` has a one and kept from
`p` otherwise, and every other bit taken from `p`; `r` is the value of the C
expression `(v & 0x0040) | (p & ~(v & 0x7) & ~0x0040)`, and the register file is
left as it was. -/
theorem writeRegister_joycnt (R : RegMap) (dol : GBASIODolphin) (v : Nat)
    (hp : dol.io R.joycnt < 65536) :
    (GBASIODolphinWriteRegister R dol R.REG_JOYCNT v).ret.testBit 6 = v.testBit 6 ∧
    (∀ i, i < 3 → (GBASIODolphinWriteRegister R dol R.REG_JOYCNT v).ret.testBit i
        = (!v.testBit i && (dol.io R.joycnt).testBit i)) ∧
    (∀ i, 3 ≤ i → i ≠ 6 → (GBASIODolphinWriteRegister R dol R.REG_JOYCNT v).ret.testBit i
        = (dol.io R.joycnt).testBit i) ∧
    (GBASIODolphinWriteRegister R dol R.REG_JOYCNT v).ret
      = ((v &&& 0x0040) ||| (dol.io R.joycnt &&& not32 (v &&& 0x7) &&& not32 0x0040)) ∧
    (GBASIODolphinWriteRegister R dol R.REG_JOYCNT v).dol = dol := by
  have key : ∀ i, (GBASIODolphinWriteRegister R dol R.REG_JOYCNT v).ret.testBit i
      = (decide (i < 16) && ((v.testBit i && decide (i = 6)) ||
          ((dol.io R.joycnt).testBit i && (decide (i < 32) ^^ (v.testBit i && decide (i < 3)))
            && (decide (i < 32) ^^ decide (i = 6))))) := by
    intro i
    simp only [GBASIODolphinWriteRegister, if_true, testBit_u16, Nat.testBit_or,
      Nat.testBit_and, testBit_not32, testBit_0x40, testBit_7]
  refine ⟨?_, ?_, ?_, ?_, ?_⟩
  · rw [key]; simp
  · intro i hi
    rw [key]
    have h1 : i < 16 := by omega
    have h2 : i < 32 := by omega
    have h3 : i ≠ 6 := by omega
    simp [h1, h2, h3, hi, Bool.and_comm]
  · intro i hi h6
    rw [key]
    by_cases h16 : i < 16
    · have h2 : i < 32 := by omega
      have h3 : ¬ i < 3 := by omega
      simp [h16, h2, h3, h6]
    · rw [testBit_high hp (by omega)]
      simp [h16]
  · apply Nat.eq_of_testBit_eq
    intro i
    rw [key]
    simp only [Nat.testBit_or, Nat.testBit_and, testBit_not32, testBit_0x40, testBit_7]
    by_cases h16 : i < 16
    · simp [h16]
    · have h6 : i ≠ 6 := by omega
      rw [testBit_high hp (by omega)]
      simp [h16, h6]
  · simp [GBASIODolphinWriteRegister]

/-- Claim C1, instance: JOYCNT = 0x47 written with 0x45 stores 0x42. -/
theorem writeRegister_joycnt_witness :
    sampleDol.io gbaRegs.joycnt < 65536 ∧
    (GBASIODolphinWriteRegister gbaRegs sampleDol gbaRegs.REG_JOYCNT 0x45).ret = 0x42 :=
  ⟨by decide, (writeRegister_joycnt gbaRegs sampleDol 0x45 (by decide)).2.2.2.1⟩

theorem RegMap.Distinct.pairs {R : RegMap} (hR : R.Distinct) :
    (R.joycnt ≠ R.recvLo ∧ R.joycnt ≠ R.recvHi ∧ R.joycnt ≠ R.transLo ∧
      R.joycnt ≠ R.transHi ∧ R.joycnt ≠ R.joystat) ∧
    (R.recvLo ≠ R.recvHi ∧ R.recvLo ≠ R.transLo ∧ R.recvLo ≠ R.transHi ∧
      R.recvLo ≠ R.joystat) ∧
    (R.recvHi ≠ R.transLo ∧ R.recvHi ≠ R.transHi ∧ R.recvHi ≠ R.joystat) ∧
    (R.transLo ≠ R.transHi ∧ R.transLo ≠ R.joystat) ∧
    R.transHi ≠ R.joystat := by
  unfold RegMap.Distinct at hR
  simp only [List.nodup_cons, List.mem_cons, List.mem_singleton, not_or] at hR
  tauto

theorem RegMap.Distinct.addr {R : RegMap} (hR : R.Distinct) :
    R.REG_JOYSTAT ≠ R.REG_JOYCNT ∧ R.REG_JOY_TRANS_LO ≠ R.REG_JOYCNT ∧
    R.REG_JOY_TRANS_HI ≠ R.REG_JOYCNT ∧ R.REG_JOY_TRANS_LO ≠ R.REG_JOYSTAT ∧
    R.REG_JOY_TRANS_HI ≠ R.REG_JOYSTAT := by
  obtain ⟨⟨-, -, h3, h4, h5⟩, -, -, ⟨-, h6⟩, h7⟩ := hR.pairs
  simp only [RegMap.joycnt, RegMap.transLo, RegMap.transHi, RegMap.joystat] at h3 h4 h5 h6 h7
  refine ⟨?_, ?_, ?_, ?_, ?_⟩ <;> intro h
  · exact h5 (by rw [h])
  · exact h3 (by rw [h])
  · exact h4 (by rw [h])
  · exact h6 (by rw [h])
  · exact h7 (by rw [h])

/-- Claim C2.  A write of `v` to JOYSTAT over the stored value `p` returns `r` with
bits 4 and 5 taken from `v` and every other bit taken from `p`, that is the value
of `(v & 0x0030) | (p & ~0x0030)`; the call leaves the register file (and the
rest of the driver state) untouched and makes no external call. -/
theorem writeRegister_joystat (R : RegMap) (dol : GBASIODolphin) (v : Nat)
    (hR : R.Distinct) (hp : dol.io R.joystat < 65536) :
    (∀ i, (i = 4 ∨ i = 5) →
      (GBASIODolphinWriteRegister R dol R.REG_JOYSTAT v).ret.testBit i = v.testBit i) ∧
    (∀ i, i ≠ 4 → i ≠ 5 →
      (GBASIODolphinWriteRegister R dol R.REG_JOYSTAT v).ret.testBit i
        = (dol.io R.joystat).testBit i) ∧
    (GBASIODolphinWriteRegister R dol R.REG_JOYSTAT v).ret
      = ((v &&& 0x0030) ||| (dol.io R.joystat &&& not32 0x0030)) ∧
    (GBASIODolphinWriteRegister R dol R.REG_JOYSTAT v).dol = dol ∧
    (GBASIODolphinWriteRegister R dol R.REG_JOYSTAT v).trace = [] := by
  have hne : R.REG_JOYSTAT ≠ R.REG_JOYCNT := hR.addr.1
  have key : ∀ i, (GBASIODolphinWriteRegister R dol R.REG_JOYSTAT v).ret.testBit i
      = (decide (i < 16) && ((v.testBit i && (decide (i = 4) || decide (i = 5))) ||
          ((dol.io R.joystat).testBit i &&
            (decide (i < 32) ^^ (decide (i = 4) || decide (i = 5)))))) := by
    intro i
    simp only [GBASIODolphinWriteRegister, if_neg hne, if_true, testBit_u16, Nat.testBit_or,
      Nat.testBit_and, testBit_not32, testBit_0x30]
  refine ⟨?_, ?_, ?_, ?_, ?_⟩
  · intro i hi
    rw [key]
    rcases hi with rfl | rfl <;> simp
  · intro i h4 h5
    rw [key]
    by_cases h16 : i < 16
    · have h2 : i < 32 := by omega
      simp [h16, h2, h4, h5]
    · rw [testBit_high hp (by omega)]
      simp [h16]
  · apply Nat.eq_of_testBit_eq
    intro i
    rw [key]
    simp only [Nat.testBit_or, Nat.testBit_and, testBit_not32, testBit_0x30]
    by_cases h16 : i < 16
    · simp [h16]
    · have h4 : i ≠ 4 := by omega
      have h5 : i ≠ 5 := by omega
      rw [testBit_high hp (by omega)]
      simp [h16, h4, h5]
  · simp [GBASIODolphinWriteRegister, if_neg hne]
  · simp [GBASIODolphinWriteRegister, if_neg hne]

/-- Claim C2, instance: JOYSTAT = 0x20 written with 0xFF1F stores 0x10. -/
theorem writeRegister_joystat_witness :
    gbaRegs.Distinct ∧ sampleDol.io gbaRegs.joystat < 65536 ∧
    (GBASIODolphinWriteRegister gbaRegs sampleDol gbaRegs.REG_JOYSTAT 0xFF1F).ret = 0x10 :=
  ⟨by decide, by decide,
    (writeRegister_joystat gbaRegs sampleDol 0xFF1F (by decide) (by decide)).2.2.1⟩

/-- Claim C3.  A write of `v` to JOY_TRANS_LO or JOY_TRANS_HI returns `v` itself and
leaves a register file in which JOYSTAT has bit 3 set, every other bit of JOYSTAT
and every other halfword are as before; nothing else of the driver changes. -/
theorem writeRegister_trans (R : RegMap) (dol : GBASIODolphin) (address v : Nat)
    (hR : R.Distinct) (hs : dol.io R.joystat < 65536)
    (ha : address = R.REG_JOY_TRANS_LO ∨ address = R.REG_JOY_TRANS_HI) :
    (GBASIODolphinWriteRegister R dol address v).ret = v ∧
    ((GBASIODolphinWriteRegister R dol address v).dol.io R.joystat).testBit 3 = true ∧
    (∀ i, i ≠ 3 → ((GBASIODolphinWriteRegister R dol address v).dol.io R.joystat).testBit i
        = (dol.io R.joystat).testBit i) ∧
    (∀ j, j ≠ R.joystat → (GBASIODolphinWriteRegister R dol address v).dol.io j = dol.io j) ∧
    (GBASIODolphinWriteRegister R dol address v).dol.data = dol.data ∧
    (GBASIODolphinWriteRegister R dol address v).dol.clock = dol.clock ∧
    (GBASIODolphinWriteRegister R dol address v).dol.nextEvent = dol.nextEvent ∧
    (GBASIODolphinWriteRegister R dol address v).dol.clockSlice = dol.clockSlice ∧
    (GBASIODolphinWriteRegister R dol address v).trace = [] := by
  obtain ⟨-, h1, h2, h3, h4⟩ := hR.addr
  have hc : address ≠ R.REG_JOYCNT := by rcases ha with rfl | rfl <;> assumption
  have hst : address ≠ R.REG_JOYSTAT := by rcases ha with rfl | rfl <;> assumption
  have hw : (GBASIODolphinWriteRegister R dol address v)
      = { dol := { dol with io := ioStore dol.io R.joystat (dol.io R.joystat ||| 8) },
          trace := [], ret := v } := by
    simp only [GBASIODolphinWriteRegister, if_neg hc, if_neg hst, if_pos ha]
  rw [hw]
  refine ⟨rfl, ?_, ?_, ?_, rfl, rfl, rfl, rfl, rfl⟩
  · simp [ioStore, testBit_u16, testBit_8]
  · intro i hi
    simp only [ioStore, if_true, testBit_u16, Nat.testBit_or, testBit_8]
    by_cases h16 : i < 16
    · simp [h16, hi]
    · rw [testBit_high hs (by omega)]
      simp [h16]
  · intro j hj
    simp [ioStore, hj]

/-- Claim C3, instance: writing 0xBEEF to JOY_TRANS_HI with JOYSTAT = 0x20 returns
0xBEEF and sets bit 3 of JOYSTAT. -/
theorem writeRegister_trans_witness :
    gbaRegs.Distinct ∧ sampleDol.io gbaRegs.joystat < 65536 ∧
    (GBASIODolphinWriteRegister gbaRegs sampleDol gbaRegs.REG_JOY_TRANS_HI 0xBEEF).ret = 0xBEEF ∧
    ((GBASIODolphinWriteRegister gbaRegs sampleDol gbaRegs.REG_JOY_TRANS_HI 0xBEEF).dol.io
      gbaRegs.joystat).testBit 3 = true :=
  ⟨by decide, by decide,
    (writeRegister_trans gbaRegs sampleDol gbaRegs.REG_JOY_TRANS_HI 0xBEEF (by decide) (by decide)
      (Or.inr rfl)).1,
    (writeRegister_trans gbaRegs sampleDol gbaRegs.REG_JOY_TRANS_HI 0xBEEF (by decide) (by decide)
      (Or.inr rfl)).2.1⟩

/-! ## Command dispatch: properties -/

theorem irqCount_raiseIfEnabled (R : RegMap) (io : Nat → Nat) :
    irqCount (raiseIfEnabled R io) = if (io R.joycnt).testBit 6 then 1 else 0 := by
  have hbit : (io R.joycnt &&& 0x40 ≠ 0) ↔ (io R.joycnt).testBit 6 = true := by
    constructor
    · intro h
      by_contra hb
      apply h
      apply Nat.eq_of_testBit_eq
      intro i
      rw [Nat.testBit_and, testBit_0x40, Nat.zero_testBit]
      by_cases h6 : i = 6
      · subst h6; simp [hb]
      · simp [h6]
    · intro hb h
      have := congrArg (fun n => Nat.testBit n 6) h
      simp [Nat.testBit_and, testBit_0x40, hb] at this
  unfold raiseIfEnabled irqCount
  by_cases hb : (io R.joycnt).testBit 6 = true
  · rw [if_pos (hbit.2 hb), if_pos hb]; rfl
  · rw [if_neg (fun h => hb (hbit.1 h)), if_neg hb]; rfl

theorem sentOn_raiseIfEnabled (R : RegMap) (io : Nat → Nat) (sock : Int) (rest : List Event) :
    sentOn sock (raiseIfEnabled R io ++ rest) = sentOn sock rest := by
  unfold raiseIfEnabled
  split <;> simp [sentOn]

/-- Claim C4.  Dispatching Poll (0x00) makes exactly one external call, a send on the
data socket of the three bytes 0x00, 0x04 and the low byte of JOYSTAT; the driver
state and register file are unchanged and no interrupt is raised. -/
theorem processCommand_poll (R : RegMap) (dol : GBASIODolphin) (buffer0 : Nat → Nat)
    (payload : List Nat) :
    (_processCommand R dol 0x00 buffer0 payload).trace
      = [Event.send dol.data [0x00, 0x04, dol.io R.joystat % 256]] ∧
    sentOn dol.data (_processCommand R dol 0x00 buffer0 payload).trace
      = [[0x00, 0x04, dol.io R.joystat % 256]] ∧
    (_processCommand R dol 0x00 buffer0 payload).dol = dol ∧
    irqCount (_processCommand R dol 0x00 buffer0 payload).trace = 0 := by
  have h : _processCommand R dol 0x00 buffer0 payload = pollResponse R dol [] := by
    simp [_processCommand, CMD_RESET, CMD_POLL]
  rw [h]
  simp [pollResponse, sentOn, irqCount, u8]

theorem processCommand_reset_eq (R : RegMap) (dol : GBASIODolphin) (buffer0 : Nat → Nat)
    (payload : List Nat) :
    _processCommand R dol 0xFF buffer0 payload
      = pollResponse R { dol with io := ioStore dol.io R.joycnt (dol.io R.joycnt ||| 1) }
          (raiseIfEnabled R (ioStore dol.io R.joycnt (dol.io R.joycnt ||| 1))) := by
  simp [_processCommand, CMD_RESET]

/-- Claim C5.  Dispatching Reset (0xFF) sets bit 0 of JOYCNT and changes no other bit of
JOYCNT and no other halfword (JOYSTAT in particular); it sends what Poll sends for
the same JOYSTAT, the three bytes 0x00, 0x04 and the low byte of JOYSTAT; it returns
the cost Poll returns; and it raises the interrupt once when bit 6 of JOYCNT was
set and never otherwise. -/
theorem processCommand_reset (R : RegMap) (dol : GBASIODolphin) (buffer0 : Nat → Nat)
    (payload : List Nat) (hR : R.Distinct) (hp : dol.io R.joycnt < 65536) :
    ((_processCommand R dol 0xFF buffer0 payload).dol.io R.joycnt).testBit 0 = true ∧
    (∀ i, i ≠ 0 → ((_processCommand R dol 0xFF buffer0 payload).dol.io R.joycnt).testBit i
        = (dol.io R.joycnt).testBit i) ∧
    (∀ j, j ≠ R.joycnt → (_processCommand R dol 0xFF buffer0 payload).dol.io j = dol.io j) ∧
    (_processCommand R dol 0xFF buffer0 payload).dol.io R.joystat = dol.io R.joystat ∧
    sentOn dol.data (_processCommand R dol 0xFF buffer0 payload).trace
      = sentOn dol.data (_processCommand R dol 0x00 buffer0 payload).trace ∧
    sentOn dol.data (_processCommand R dol 0xFF buffer0 payload).trace
      = [[0x00, 0x04, dol.io R.joystat % 256]] ∧
    (_processCommand R dol 0xFF buffer0 payload).ret
      = (_processCommand R dol 0x00 buffer0 payload).ret ∧
    irqCount (_processCommand R dol 0xFF buffer0 payload).trace
      = (if (dol.io R.joycnt).testBit 6 then 1 else 0) := by
  have hsc : R.joystat ≠ R.joycnt := fun h => hR.pairs.1.2.2.2.2 h.symm
  have hpoll : _processCommand R dol 0x00 buffer0 payload = pollResponse R dol [] := by
    simp [_processCommand, CMD_RESET, CMD_POLL]
  have hstat : ioStore dol.io R.joycnt (dol.io R.joycnt ||| 1) R.joystat = dol.io R.joystat := by
    simp [ioStore, hsc]
  have hsent : sentOn dol.data (_processCommand R dol 0xFF buffer0 payload).trace
      = [[0x00, 0x04, dol.io R.joystat % 256]] := by
    rw [processCommand_reset_eq]
    simp only [pollResponse, sentOn_raiseIfEnabled, hstat]
    simp [sentOn, u8]
  refine ⟨?_, ?_, ?_, ?_, ?_, hsent, ?_, ?_⟩
  · rw [processCommand_reset_eq]
    simp only [pollResponse, ioStore, if_true, testBit_u16, Nat.testBit_or, testBit_1]
    simp
  · intro i hi
    rw [processCommand_reset_eq]
    simp only [pollResponse, ioStore, if_true, testBit_u16, Nat.testBit_or, testBit_1]
    by_cases h16 : i < 16
    · simp [h16, hi]
    · rw [testBit_high hp (by omega)]
      simp [h16]
  · intro j hj
    rw [processCommand_reset_eq]
    simp [pollResponse, ioStore, hj]
  · rw [processCommand_reset_eq]
    exact hstat
  · rw [hsent, hpoll]
    simp [pollResponse, sentOn, u8]
  · rw [processCommand_reset_eq, hpoll]
    rfl
  · rw [processCommand_reset_eq]
    simp only [pollResponse]
    have hsplit : ∀ a b : List Event, irqCount (a ++ b) = irqCount a + irqCount b := by
      intro a b; simp [irqCount]
    rw [hsplit, irqCount_raiseIfEnabled]
    have h6 : (ioStore dol.io R.joycnt (dol.io R.joycnt ||| 1) R.joycnt).testBit 6
        = (dol.io R.joycnt).testBit 6 := by
      simp [ioStore, testBit_u16, testBit_1]
    rw [h6]
    simp [irqCount]

/-- Claim C5, instance: with JOYCNT = 0x47 and JOYSTAT = 0x20, Reset answers 0x00 0x04
0x20 and raises the interrupt once. -/
theorem processCommand_reset_witness :
    gbaRegs.Distinct ∧ sampleDol.io gbaRegs.joycnt < 65536 ∧
    sentOn sampleDol.data (_processCommand gbaRegs sampleDol 0xFF (fun _ => 0) []).trace
      = [[0x00, 0x04, 0x20]] ∧
    irqCount (_processCommand gbaRegs sampleDol 0xFF (fun _ => 0) []).trace = 1 :=
  ⟨by decide, by decide,
    (processCommand_reset gbaRegs sampleDol (fun _ => 0) [] (by decide) (by decide)).2.2.2.2.2.1,
    (processCommand_reset gbaRegs sampleDol (fun _ => 0) [] (by decide) (by decide)).2.2.2.2.2.2.2⟩

theorem testBit_0xF7 (i : Nat) : (0xF7 : Nat).testBit i = (decide (i < 8) ^^ decide (i = 3)) := by
  have h : (0xF7 : Nat) = (2 ^ 8 - 1) ^^^ 2 ^ 3 := by decide
  rw [h, Nat.testBit_xor, Nat.testBit_two_pow_sub_one, testBit_pow]

theorem u8_shiftRight_of_lt {x : Nat} (h : x < 65536) : u8 (x >>> 8) = x >>> 8 := by
  unfold u8
  rw [Nat.shiftRight_eq_div_pow]
  apply Nat.mod_eq_of_lt
  omega

theorem irqCount_append (a b : List Event) : irqCount (a ++ b) = irqCount a + irqCount b := by
  simp [irqCount]

theorem processCommand_trans_eq (R : RegMap) (dol : GBASIODolphin) (buffer0 : Nat → Nat)
    (payload : List Nat) :
    _processCommand R dol 0x14 buffer0 payload
      = { dol := { dol with io := (ioStore (ioStore dol.io R.joycnt (dol.io R.joycnt ||| 4))
              R.joystat (ioStore dol.io R.joycnt (dol.io R.joycnt ||| 4) R.joystat &&& not32 8)) },
          trace := [Event.send dol.data
              [u8 (ioStore (ioStore dol.io R.joycnt (dol.io R.joycnt ||| 4))
                  R.joystat (ioStore dol.io R.joycnt (dol.io R.joycnt ||| 4) R.joystat
                    &&& not32 8) R.transLo),
               u8 (ioStore (ioStore dol.io R.joycnt (dol.io R.joycnt ||| 4))
                  R.joystat (ioStore dol.io R.joycnt (dol.io R.joycnt ||| 4) R.joystat
                    &&& not32 8) R.transLo >>> 8),
               u8 (ioStore (ioStore dol.io R.joycnt (dol.io R.joycnt ||| 4))
                  R.joystat (ioStore dol.io R.joycnt (dol.io R.joycnt ||| 4) R.joystat
                    &&& not32 8) R.transHi),
               u8 (ioStore (ioStore dol.io R.joycnt (dol.io R.joycnt ||| 4))
                  R.joystat (ioStore dol.io R.joycnt (dol.io R.joycnt ||| 4) R.joystat
                    &&& not32 8) R.transHi >>> 8),
               u8 (ioStore (ioStore dol.io R.joycnt (dol.io R.joycnt ||| 4))
                  R.joystat (ioStore dol.io R.joycnt (dol.io R.joycnt ||| 4) R.joystat
                    &&& not32 8) R.joystat)]]
            ++ raiseIfEnabled R (ioStore (ioStore dol.io R.joycnt (dol.io R.joycnt ||| 4))
                  R.joystat (ioStore dol.io R.joycnt (dol.io R.joycnt ||| 4) R.joystat
                    &&& not32 8)),
          ret := (8 + 1 + (40 + 1)) * CYCLES_PER_BIT } := by
  simp [_processCommand, CMD_RESET, CMD_POLL, CMD_RECV, CMD_TRANS]

/-- Register file after the two stores of the `CMD_TRANS` case, at the registers
of interest. -/
theorem trans_io (R : RegMap) (io : Nat → Nat) (hR : R.Distinct) :
    ioStore (ioStore io R.joycnt (io R.joycnt ||| 4)) R.joystat
        (ioStore io R.joycnt (io R.joycnt ||| 4) R.joystat &&& not32 8) R.joycnt
      = u16 (io R.joycnt ||| 4) ∧
    ioStore (ioStore io R.joycnt (io R.joycnt ||| 4)) R.joystat
        (ioStore io R.joycnt (io R.joycnt ||| 4) R.joystat &&& not32 8) R.joystat
      = u16 (io R.joystat &&& not32 8) ∧
    ioStore (ioStore io R.joycnt (io R.joycnt ||| 4)) R.joystat
        (ioStore io R.joycnt (io R.joycnt ||| 4) R.joystat &&& not32 8) R.transLo
      = io R.transLo ∧
    ioStore (ioStore io R.joycnt (io R.joycnt ||| 4)) R.joystat
        (ioStore io R.joycnt (io R.joycnt ||| 4) R.joystat &&& not32 8) R.transHi
      = io R.transHi := by
  obtain ⟨⟨-, -, h3, h4, h5⟩, -, -, ⟨-, h6⟩, h7⟩ := hR.pairs
  refine ⟨?_, ?_, ?_, ?_⟩
  · simp [ioStore, h5]
  · simp [ioStore, Ne.symm h5]
  · simp [ioStore, Ne.symm h3, h6]
  · simp [ioStore, Ne.symm h4, h7]

/-- Claim C6.  Dispatching Trans (0x14) with JOY_TRANS_LO = L, JOY_TRANS_HI = H and
JOYSTAT = S sends the five bytes L mod 256, L >> 8, H mod 256, H >> 8 and the low
byte of S with bit 3 cleared; afterwards bit 2 of JOYCNT is set, bit 3 of JOYSTAT
is clear, both transmit registers are unchanged, and the interrupt is raised once
when bit 6 of JOYCNT is set and never otherwise. -/
theorem processCommand_trans (R : RegMap) (dol : GBASIODolphin) (buffer0 : Nat → Nat)
    (payload : List Nat) (hR : R.Distinct)
    (hL : dol.io R.transLo < 65536) (hH : dol.io R.transHi < 65536) :
    sentOn dol.data (_processCommand R dol 0x14 buffer0 payload).trace
      = [[dol.io R.transLo % 256, dol.io R.transLo >>> 8,
          dol.io R.transHi % 256, dol.io R.transHi >>> 8,
          (dol.io R.joystat % 256) &&& 0xF7]] ∧
    ((_processCommand R dol 0x14 buffer0 payload).dol.io R.joycnt).testBit 2 = true ∧
    ((_processCommand R dol 0x14 buffer0 payload).dol.io R.joystat).testBit 3 = false ∧
    (_processCommand R dol 0x14 buffer0 payload).dol.io R.transLo = dol.io R.transLo ∧
    (_processCommand R dol 0x14 buffer0 payload).dol.io R.transHi = dol.io R.transHi ∧
    irqCount (_processCommand R dol 0x14 buffer0 payload).trace
      = (if (dol.io R.joycnt).testBit 6 then 1 else 0) := by
  obtain ⟨hcnt, hstat, hlo, hhi⟩ := trans_io R dol.io hR
  have hbyte : u8 (u16 (dol.io R.joystat &&& not32 8)) = (dol.io R.joystat % 256) &&& 0xF7 := by
    apply Nat.eq_of_testBit_eq
    intro i
    have h256 : dol.io R.joystat % 256 = u8 (dol.io R.joystat) := rfl
    rw [h256]
    simp only [testBit_u8, testBit_u16, Nat.testBit_and, testBit_not32, testBit_8, testBit_0xF7]
    by_cases h8 : i < 8
    · have h16 : i < 16 := by omega
      have h32 : i < 32 := by omega
      simp [h8, h16, h32]
    · simp [h8]
  rw [processCommand_trans_eq]
  simp only [hcnt, hstat, hlo, hhi]
  refine ⟨?_, ?_, ?_, trivial, trivial, ?_⟩
  · have hnil : ∀ io : Nat → Nat, sentOn dol.data (raiseIfEnabled R io) = [] := by
      intro io
      simpa [sentOn] using sentOn_raiseIfEnabled R io dol.data []
    rw [hbyte, u8_shiftRight_of_lt hL, u8_shiftRight_of_lt hH]
    simp [sentOn, hnil, u8]
  · simp only [testBit_u16, Nat.testBit_or, testBit_4]
    simp
  · simp only [testBit_u16, Nat.testBit_and, testBit_not32, testBit_8]
    simp
  · have hsplit : ∀ e : Event, ∀ l : List Event, irqCount ([e] ++ l) = irqCount [e] + irqCount l :=
      fun e l => irqCount_append [e] l
    rw [hsplit, irqCount_raiseIfEnabled, hcnt]
    simp [irqCount, testBit_u16, testBit_4]

/-- Claim C6, instance: L = 0x1234, H = 0x5678, S = 0x20 sends 0x34 0x12 0x78 0x56
0x20. -/
theorem processCommand_trans_witness :
    gbaRegs.Distinct ∧ sampleDol.io gbaRegs.transLo < 65536 ∧
    sampleDol.io gbaRegs.transHi < 65536 ∧
    sentOn sampleDol.data (_processCommand gbaRegs sampleDol 0x14 (fun _ => 0) []).trace
      = [[0x34, 0x12, 0x78, 0x56, 0x20]] :=
  ⟨by decide, by decide, by decide,
    (processCommand_trans gbaRegs sampleDol (fun _ => 0) [] (by decide) (by decide)
      (by decide)).1⟩

theorem u16_bytes {a b : Nat} (ha : a < 256) (hb : b < 256) :
    u16 (u8 a ||| (u8 b <<< 8)) = a ||| (b <<< 8) := by
  have h1 : u8 a = a := Nat.mod_eq_of_lt ha
  have h2 : u8 b = b := Nat.mod_eq_of_lt hb
  rw [h1, h2]
  apply u16_of_lt
  have h16 : (65536 : Nat) = 2 ^ 16 := by norm_num
  rw [h16]
  apply Nat.or_lt_two_pow
  · omega
  · rw [Nat.shiftLeft_eq]; omega

/-- Claim C7.  Dispatching Recv (0x15) when the data socket delivers the four bytes
b0 b1 b2 b3: afterwards bit 1 of JOYCNT and bit 1 of JOYSTAT are set, JOY_RECV_LO is
b0 | b1 << 8 and JOY_RECV_HI is b2 | b3 << 8; the one byte sent is the low byte of
JOYSTAT as it stands after bit 1 was set; and the interrupt is raised once when bit
6 of JOYCNT is set and never otherwise. -/
theorem processCommand_recv (R : RegMap) (dol : GBASIODolphin) (buffer0 : Nat → Nat)
    (b0 b1 b2 b3 : Nat) (hR : R.Distinct)
    (h0 : b0 < 256) (h1 : b1 < 256) (h2 : b2 < 256) (h3 : b3 < 256) :
    ((_processCommand R dol 0x15 buffer0 [b0, b1, b2, b3]).dol.io R.joycnt).testBit 1 = true ∧
    ((_processCommand R dol 0x15 buffer0 [b0, b1, b2, b3]).dol.io R.joystat).testBit 1 = true ∧
    (_processCommand R dol 0x15 buffer0 [b0, b1, b2, b3]).dol.io R.recvLo = b0 ||| (b1 <<< 8) ∧
    (_processCommand R dol 0x15 buffer0 [b0, b1, b2, b3]).dol.io R.recvHi = b2 ||| (b3 <<< 8) ∧
    sentOn dol.data (_processCommand R dol 0x15 buffer0 [b0, b1, b2, b3]).trace
      = [[(_processCommand R dol 0x15 buffer0 [b0, b1, b2, b3]).dol.io R.joystat % 256]] ∧
    (_processCommand R dol 0x15 buffer0 [b0, b1, b2, b3]).dol.io R.joystat
      = (dol.io R.joystat ||| 2) % 65536 ∧
    irqCount (_processCommand R dol 0x15 buffer0 [b0, b1, b2, b3]).trace
      = (if (dol.io R.joycnt).testBit 6 then 1 else 0) := by
  obtain ⟨⟨c1, c2, -, -, c5⟩, ⟨l1, -, -, l4⟩, ⟨-, -, r3⟩, -, -⟩ := hR.pairs
  have hnil : ∀ io : Nat → Nat, sentOn dol.data (raiseIfEnabled R io) = [] := by
    intro io
    simpa [sentOn] using sentOn_raiseIfEnabled R io dol.data []
  have hio : ∀ j, (_processCommand R dol 0x15 buffer0 [b0, b1, b2, b3]).dol.io j
      = ioStore (ioStore (ioStore (ioStore dol.io R.joycnt (dol.io R.joycnt ||| 2)) R.joystat
          (dol.io R.joystat ||| 2)) R.recvLo (u8 b0 ||| (u8 b1 <<< 8))) R.recvHi
          (u8 b2 ||| (u8 b3 <<< 8)) j := by
    intro j
    simp [_processCommand, CMD_RESET, CMD_POLL, CMD_RECV, recvInto, ioStore, Ne.symm c5]
  have hcnt : (_processCommand R dol 0x15 buffer0 [b0, b1, b2, b3]).dol.io R.joycnt
      = u16 (dol.io R.joycnt ||| 2) := by
    rw [hio]; simp [ioStore, c1, c2, c5]
  have hstat : (_processCommand R dol 0x15 buffer0 [b0, b1, b2, b3]).dol.io R.joystat
      = u16 (dol.io R.joystat ||| 2) := by
    rw [hio]; simp [ioStore, Ne.symm l4, Ne.symm r3]
  have htrace : (_processCommand R dol 0x15 buffer0 [b0, b1, b2, b3]).trace
      = [Event.recv dol.data 4, Event.send dol.data
          [u8 ((_processCommand R dol 0x15 buffer0 [b0, b1, b2, b3]).dol.io R.joystat)]]
        ++ raiseIfEnabled R (_processCommand R dol 0x15 buffer0 [b0, b1, b2, b3]).dol.io := by
    simp [_processCommand, CMD_RESET, CMD_POLL, CMD_RECV]
  refine ⟨?_, ?_, ?_, ?_, ?_, hstat, ?_⟩
  · rw [hcnt]
    simp only [testBit_u16, Nat.testBit_or, testBit_2]
    simp
  · rw [hstat]
    simp only [testBit_u16, Nat.testBit_or, testBit_2]
    simp
  · rw [hio]
    simp only [ioStore, if_neg l1, if_true]
    exact u16_bytes h0 h1
  · rw [hio]
    simp only [ioStore, if_true]
    exact u16_bytes h2 h3
  · rw [htrace]
    simp [sentOn, hnil, u8]
  · rw [htrace, irqCount_append, irqCount_raiseIfEnabled, hcnt]
    simp [irqCount, testBit_u16, testBit_2]

/-- Claim C7, instance: the payload 0x78 0x56 0x34 0x12 with JOYCNT = 0x47 and
JOYSTAT = 0x20 stores 0x5678 and 0x1234, answers 0x22 and raises the interrupt. -/
theorem processCommand_recv_witness :
    gbaRegs.Distinct ∧ 0x78 < 256 ∧ 0x56 < 256 ∧ 0x34 < 256 ∧ 0x12 < 256 ∧
    (_processCommand gbaRegs sampleDol 0x15 (fun _ => 0) [0x78, 0x56, 0x34, 0x12]).dol.io
      gbaRegs.recvLo = 0x5678 ∧
    (_processCommand gbaRegs sampleDol 0x15 (fun _ => 0) [0x78, 0x56, 0x34, 0x12]).dol.io
      gbaRegs.recvHi = 0x1234 ∧
    (_processCommand gbaRegs sampleDol 0x15 (fun _ => 0) [0x78, 0x56, 0x34, 0x12]).dol.io
      gbaRegs.joystat = 0x22 ∧
    irqCount (_processCommand gbaRegs sampleDol 0x15 (fun _ => 0)
      [0x78, 0x56, 0x34, 0x12]).trace = 1 :=
  ⟨by decide, by decide, by decide, by decide, by decide,
    (processCommand_recv gbaRegs sampleDol (fun _ => 0) 0x78 0x56 0x34 0x12 (by decide)
      (by decide) (by decide) (by decide) (by decide)).2.2.1,
    (processCommand_recv gbaRegs sampleDol (fun _ => 0) 0x78 0x56 0x34 0x12 (by decide)
      (by decide) (by decide) (by decide) (by decide)).2.2.2.1,
    (processCommand_recv gbaRegs sampleDol (fun _ => 0) 0x78 0x56 0x34 0x12 (by decide)
      (by decide) (by decide) (by decide) (by decide)).2.2.2.2.2.1,
    (processCommand_recv gbaRegs sampleDol (fun _ => 0) 0x78 0x56 0x34 0x12 (by decide)
      (by decide) (by decide) (by decide) (by decide)).2.2.2.2.2.2⟩

/-! ## Cycle cost -/

theorem processCommand_ret (R : RegMap) (dol : GBASIODolphin) (command : Nat)
    (buffer0 : Nat → Nat) (payload : List Nat) :
    (_processCommand R dol command buffer0 payload).ret
      = if command = 0xFF ∨ command = 0x00 then 2550
        else if command = 0x15 ∨ command = 0x14 then 3750 else 675 := by
  unfold _processCommand
  simp only [CMD_RESET, CMD_POLL, CMD_RECV, CMD_TRANS, CYCLES_PER_BIT, pollResponse]
  by_cases h1 : command = 0xFF
  · simp [h1]
  by_cases h2 : command = 0x00
  · simp [h2]
  by_cases h3 : command = 0x15
  · simp [h3]
  by_cases h4 : command = 0x14
  · simp [h4]
  simp [h1, h2, h3, h4]

/-- Claim C8.  For every command byte the cost returned by command dispatch is
(8 + 1 + extraBits) * 75 with extraBits 25 for Reset and Poll, 41 for Recv and
Trans and 0 for every other byte, that is 2550, 3750 or 675 cycles, whatever the
register file and the sockets hold. -/
theorem processCommand_cost (R : RegMap) (dol : GBASIODolphin) (command : Nat)
    (buffer0 : Nat → Nat) (payload : List Nat) :
    (_processCommand R dol command buffer0 payload).ret = (8 + 1 + extraBits command) * 75 ∧
    (_processCommand R dol command buffer0 payload).ret
      = (if command = 0xFF ∨ command = 0x00 then 2550
         else if command = 0x15 ∨ command = 0x14 then 3750 else 675) ∧
    extraBits command
      = (if command = 0xFF ∨ command = 0x00 then 25
         else if command = 0x15 ∨ command = 0x14 then 41 else 0) := by
  refine ⟨?_, processCommand_ret R dol command buffer0 payload, ?_⟩
  · rw [processCommand_ret]
    unfold extraBits
    split
    · norm_num
    · split <;> norm_num
  · unfold extraBits
    split
    · norm_num
    · split <;> norm_num

/-- Claim C9, as stated, fails: dispatching Poll does not cost 25 * 75 = 1875 cycles
and dispatching Trans does not cost 41 * 75 = 3075 cycles. -/
theorem processCommand_cost_not_extraBits_only :
    (_processCommand gbaRegs sampleDol 0x00 (fun _ => 0) []).ret ≠ 25 * 75 ∧
    (_processCommand gbaRegs sampleDol 0x14 (fun _ => 0) []).ret ≠ 41 * 75 := by
  rw [processCommand_ret, processCommand_ret]
  decide

/-- Claim C9, amended.  The cost of a dispatch counts the nine bits of the command
byte and its framing as well: Poll costs (8 + 1 + 25) * 75 = 2550 cycles and Trans
costs (8 + 1 + 41) * 75 = 3750 cycles, for every register file. -/
theorem processCommand_cost_poll_trans (R : RegMap) (dol : GBASIODolphin)
    (buffer0 : Nat → Nat) (payload : List Nat) :
    (_processCommand R dol 0x00 buffer0 payload).ret = (8 + 1 + 25) * 75 ∧
    (_processCommand R dol 0x00 buffer0 payload).ret = 2550 ∧
    (_processCommand R dol 0x14 buffer0 payload).ret = (8 + 1 + 41) * 75 ∧
    (_processCommand R dol 0x14 buffer0 payload).ret = 3750 := by
  rw [processCommand_ret, processCommand_ret]
  norm_num

/-! ## Command dispatch: frame properties -/

theorem processCommand_frame (R : RegMap) (dol : GBASIODolphin) (command : Nat)
    (buffer0 : Nat → Nat) (payload : List Nat) :
    (_processCommand R dol command buffer0 payload).dol.data = dol.data ∧
    (_processCommand R dol command buffer0 payload).dol.clock = dol.clock ∧
    (_processCommand R dol command buffer0 payload).dol.nextEvent = dol.nextEvent ∧
    (_processCommand R dol command buffer0 payload).dol.clockSlice = dol.clockSlice := by
  unfold _processCommand
  split_ifs <;> simp [pollResponse]

/-- Claim C13.  For every command byte other than 0xFF, 0x00, 0x14 and 0x15 the
dispatch returns the driver state as it was, makes no external call at all (no send,
no further read, no interrupt) and returns 9 * 75 = 675 cycles, which is not the idle
grain of 8 * 75 = 600 cycles. -/
theorem processCommand_unknown (R : RegMap) (dol : GBASIODolphin) (command : Nat)
    (buffer0 : Nat → Nat) (payload : List Nat)
    (h1 : command ≠ 0xFF) (h2 : command ≠ 0x00) (h3 : command ≠ 0x14) (h4 : command ≠ 0x15) :
    (_processCommand R dol command buffer0 payload).dol = dol ∧
    (_processCommand R dol command buffer0 payload).trace = [] ∧
    sentOn dol.data (_processCommand R dol command buffer0 payload).trace = [] ∧
    readCount (_processCommand R dol command buffer0 payload).trace = 0 ∧
    irqCount (_processCommand R dol command buffer0 payload).trace = 0 ∧
    (_processCommand R dol command buffer0 payload).ret = 9 * 75 ∧
    (_processCommand R dol command buffer0 payload).ret = 675 ∧
    CLOCK_GRAIN = 600 ∧
    (_processCommand R dol command buffer0 payload).ret ≠ CLOCK_GRAIN := by
  have h : _processCommand R dol command buffer0 payload
      = { dol := dol, trace := [], ret := (8 + 1) * CYCLES_PER_BIT } := by
    unfold _processCommand
    simp only [CMD_RESET, CMD_POLL, CMD_RECV, CMD_TRANS]
    rw [if_neg h1, if_neg h2, if_neg h4, if_neg h3]
  rw [h]
  simp [sentOn, readCount, irqCount, CYCLES_PER_BIT, CLOCK_GRAIN]

/-- Claim C13, instance: the byte 0x80 (`CMD_NONE`) costs 675 cycles and leaves no
trace. -/
theorem processCommand_unknown_witness :
    CMD_NONE ≠ 0xFF ∧ CMD_NONE ≠ 0x00 ∧ CMD_NONE ≠ 0x14 ∧ CMD_NONE ≠ 0x15 ∧
    (_processCommand gbaRegs sampleDol CMD_NONE (fun _ => 0) []).trace = [] ∧
    (_processCommand gbaRegs sampleDol CMD_NONE (fun _ => 0) []).ret = 675 :=
  ⟨by decide, by decide, by decide, by decide,
    (processCommand_unknown gbaRegs sampleDol CMD_NONE (fun _ => 0) [] (by decide) (by decide)
      (by decide) (by decide)).2.1,
    (processCommand_unknown gbaRegs sampleDol CMD_NONE (fun _ => 0) [] (by decide) (by decide)
      (by decide) (by decide)).2.2.2.2.2.2.1⟩

theorem processCommand_io_other (R : RegMap) (dol : GBASIODolphin) (command : Nat)
    (buffer0 : Nat → Nat) (payload : List Nat) (j : Nat)
    (h1 : j ≠ R.joycnt) (h2 : j ≠ R.joystat) (h3 : j ≠ R.recvLo) (h4 : j ≠ R.recvHi) :
    (_processCommand R dol command buffer0 payload).dol.io j = dol.io j := by
  unfold _processCommand
  split_ifs <;> simp [pollResponse, ioStore, h1, h2, h3, h4]

theorem processCommand_joycnt (R : RegMap) (dol : GBASIODolphin) (command : Nat)
    (buffer0 : Nat → Nat) (payload : List Nat) (hR : R.Distinct) :
    (_processCommand R dol command buffer0 payload).dol.io R.joycnt
      = if command = 0xFF then u16 (dol.io R.joycnt ||| 1)
        else if command = 0x15 then u16 (dol.io R.joycnt ||| 2)
        else if command = 0x14 then u16 (dol.io R.joycnt ||| 4)
        else dol.io R.joycnt := by
  obtain ⟨⟨c1, c2, -, -, c5⟩, -, -, -, -⟩ := hR.pairs
  unfold _processCommand
  simp only [CMD_RESET, CMD_POLL, CMD_RECV, CMD_TRANS]
  by_cases h1 : command = 0xFF
  · simp [h1, pollResponse, ioStore]
  by_cases h2 : command = 0x00
  · simp [h2, pollResponse]
  by_cases h3 : command = 0x15
  · simp [h3, ioStore, c1, c2, c5]
  by_cases h4 : command = 0x14
  · simp [h4, ioStore, c5]
  simp [h1, h2, h3, h4]

theorem processCommand_joystat (R : RegMap) (dol : GBASIODolphin) (command : Nat)
    (buffer0 : Nat → Nat) (payload : List Nat) (hR : R.Distinct) :
    (_processCommand R dol command buffer0 payload).dol.io R.joystat
      = if command = 0x15 then u16 (dol.io R.joystat ||| 2)
        else if command = 0x14 then u16 (dol.io R.joystat &&& not32 8)
        else dol.io R.joystat := by
  obtain ⟨⟨-, -, -, -, c5⟩, ⟨-, -, -, l4⟩, ⟨-, -, r3⟩, -, -⟩ := hR.pairs
  unfold _processCommand
  simp only [CMD_RESET, CMD_POLL, CMD_RECV, CMD_TRANS]
  by_cases h1 : command = 0xFF
  · simp [h1, pollResponse, ioStore, Ne.symm c5]
  by_cases h2 : command = 0x00
  · simp [h2, pollResponse]
  by_cases h3 : command = 0x15
  · simp [h3, ioStore, Ne.symm c5, Ne.symm l4, Ne.symm r3]
  by_cases h4 : command = 0x14
  · simp [h4, ioStore, Ne.symm c5]
  simp [h1, h2, h3, h4]

/-- Claim C17, as stated, fails: with JOYSTAT = 0x20 a Recv dispatch that receives its
four bytes leaves JOYSTAT = 0x22, in which bit 3 is clear. -/
theorem processCommand_recv_bit3_clear :
    (_processCommand gbaRegs sampleDol 0x15 (fun _ => 0) [0x78, 0x56, 0x34, 0x12]).dol.io
        gbaRegs.joystat = 0x22 ∧
    ((_processCommand gbaRegs sampleDol 0x15 (fun _ => 0) [0x78, 0x56, 0x34, 0x12]).dol.io
        gbaRegs.joystat).testBit 3 = false := by
  rw [processCommand_joystat gbaRegs sampleDol 0x15 _ _ (by decide)]
  decide

/-- Claim C17, amended.  A Recv dispatch sets bit 1 of JOYSTAT and leaves bit 3 of
JOYSTAT as it was, whatever the data socket delivers. -/
theorem processCommand_recv_bit3_kept (R : RegMap) (dol : GBASIODolphin)
    (buffer0 : Nat → Nat) (payload : List Nat) (hR : R.Distinct) :
    ((_processCommand R dol 0x15 buffer0 payload).dol.io R.joystat).testBit 3
      = (dol.io R.joystat).testBit 3 ∧
    ((_processCommand R dol 0x15 buffer0 payload).dol.io R.joystat).testBit 1 = true := by
  rw [processCommand_joystat R dol 0x15 buffer0 payload hR]
  simp only [if_true, testBit_u16, Nat.testBit_or, testBit_2]
  simp

/-- Claim C17, amended, instance: JOYSTAT = 0x20 has bit 3 clear before and after a
Recv dispatch. -/
theorem processCommand_recv_bit3_kept_witness :
    gbaRegs.Distinct ∧
    ((_processCommand gbaRegs sampleDol 0x15 (fun _ => 0) []).dol.io gbaRegs.joystat).testBit 3
      = (sampleDol.io gbaRegs.joystat).testBit 3 :=
  ⟨by decide, (processCommand_recv_bit3_kept gbaRegs sampleDol (fun _ => 0) [] (by decide)).1⟩

theorem processCommand_io_congr (R : RegMap) (dol dol2 : GBASIODolphin) (command : Nat)
    (buffer0 : Nat → Nat) (payload : List Nat) (h : dol2.io = dol.io) :
    (_processCommand R dol2 command buffer0 payload).dol.io
      = (_processCommand R dol command buffer0 payload).dol.io := by
  unfold _processCommand
  split_ifs <;> simp [pollResponse, h]

/-- JOYCNT after a dispatch is JOYCNT before with at most one of bits 0 to 2 added. -/
theorem processCommand_joycnt_or (R : RegMap) (dol : GBASIODolphin) (command : Nat)
    (buffer0 : Nat → Nat) (payload : List Nat) (hR : R.Distinct)
    (hp : dol.io R.joycnt < 65536) :
    ∃ m, m < 8 ∧ (_processCommand R dol command buffer0 payload).dol.io R.joycnt
      = dol.io R.joycnt ||| m := by
  have h16 : (65536 : Nat) = 2 ^ 16 := by norm_num
  have hlt : ∀ m, m < 8 → dol.io R.joycnt ||| m < 65536 := by
    intro m hm
    rw [h16]
    exact Nat.or_lt_two_pow (by rw [← h16]; exact hp) (by omega)
  rw [processCommand_joycnt R dol command buffer0 payload hR]
  split_ifs
  · exact ⟨1, by norm_num, u16_of_lt (hlt 1 (by norm_num))⟩
  · exact ⟨2, by norm_num, u16_of_lt (hlt 2 (by norm_num))⟩
  · exact ⟨4, by norm_num, u16_of_lt (hlt 4 (by norm_num))⟩
  · exact ⟨0, by norm_num, by simp⟩

/-! ## Cycle-budget scheduling: the two paths -/

theorem wrap32_of_inRange {x : Int} (h : InRange32 x) : wrap32 x = x := by
  unfold InRange32 at h
  unfold wrap32
  omega

theorem wrap32_inRange (x : Int) : InRange32 (wrap32 x) := by
  unfold InRange32 wrap32
  omega

theorem refillClock_fields (dol : GBASIODolphin) (env : Env) :
    (refillClock dol env).1.io = dol.io ∧
    (refillClock dol env).1.data = dol.data ∧
    (refillClock dol env).1.clock = dol.clock ∧
    (refillClock dol env).1.nextEvent = dol.nextEvent ∧
    (refillClock dol env).1.clockSlice
      = (if dol.clockSlice ≤ 0 ∧ env.clockReadable = true ∧ (env.clockBytes.take 4).length = 4
         then wrap32 (dol.clockSlice + ntohl (env.clockBytes.take 4)) else dol.clockSlice) ∧
    (refillClock dol env).2
      = (if dol.clockSlice ≤ 0 then
          (if env.clockReadable = true then [Event.poll dol.clock, Event.recv dol.clock 4]
           else [Event.poll dol.clock])
         else []) := by
  unfold refillClock
  by_cases h1 : dol.clockSlice ≤ 0
  · by_cases h2 : env.clockReadable = true
    · by_cases h3 : (env.clockBytes.take 4).length = 4
      · simp only [h1, h2, h3, if_true, and_self]
      · simp only [h1, h2, h3, if_true, if_false, and_false, and_self]
    · simp only [h1, h2, Bool.false_eq_true, if_true, if_false, false_and, and_false,
        and_self]
  · simp only [h1, if_false, false_and, and_self]

theorem readCommand_fields (R : RegMap) (dol : GBASIODolphin) (env : Env) :
    (readCommand R dol env).1.data = dol.data ∧
    (readCommand R dol env).1.clock = dol.clock ∧
    (readCommand R dol env).1.clockSlice = dol.clockSlice ∧
    (readCommand R dol env).1.nextEvent
      = wrap32 (dol.nextEvent + (match env.commandBytes with
          | cmd :: _ => (_processCommand R dol (u8 cmd) env.buffer0 env.payload).ret
          | [] => CLOCK_GRAIN)) ∧
    (readCommand R dol env).1.io
      = (match env.commandBytes with
          | cmd :: _ => (_processCommand R dol (u8 cmd) env.buffer0 env.payload).dol.io
          | [] => dol.io) ∧
    (readCommand R dol env).2
      = Event.recv dol.data 1 :: (match env.commandBytes with
          | cmd :: _ => (_processCommand R dol (u8 cmd) env.buffer0 env.payload).trace
          | [] => []) := by
  unfold readCommand
  cases hc : env.commandBytes with
  | nil => simp
  | cons cmd rest =>
    have hf := processCommand_frame R dol (u8 cmd) env.buffer0 env.payload
    simp [hf.1, hf.2.1, hf.2.2.1, hf.2.2.2]

/-- The early return: when `nextEvent` is still positive after the subtraction,
nothing but the two counters changes and no external call is made. -/
theorem processEvents_early (R : RegMap) (dol : GBASIODolphin) (cycles : Int) (env : Env)
    (h : 0 < wrap32 (dol.nextEvent - cycles)) :
    GBASIODolphinProcessEvents R dol cycles env
      = { dol := { dol with nextEvent := wrap32 (dol.nextEvent - cycles),
                            clockSlice := wrap32 (dol.clockSlice - cycles) },
          trace := [], ret := wrap32 (dol.nextEvent - cycles) } := by
  unfold GBASIODolphinProcessEvents
  simp only
  rw [if_neg (not_le.mpr h)]

theorem processCommand_trace_congr (R : RegMap) (dol dol2 : GBASIODolphin) (command : Nat)
    (buffer0 : Nat → Nat) (payload : List Nat) (h : dol2.io = dol.io)
    (hd : dol2.data = dol.data) :
    (_processCommand R dol2 command buffer0 payload).trace
      = (_processCommand R dol command buffer0 payload).trace := by
  unfold _processCommand
  split_ifs <;> simp [pollResponse, h, hd]

theorem clamp_fields (dol : GBASIODolphin) :
    (clamp dol).io = dol.io ∧ (clamp dol).data = dol.data ∧ (clamp dol).clock = dol.clock ∧
    (clamp dol).clockSlice = dol.clockSlice ∧
    (clamp dol).nextEvent = min dol.nextEvent dol.clockSlice := by
  unfold clamp
  split_ifs with h
  · refine ⟨rfl, rfl, rfl, rfl, ?_⟩
    simp only
    rw [min_eq_right (le_of_lt h)]
  · refine ⟨rfl, rfl, rfl, rfl, ?_⟩
    rw [min_eq_left (not_lt.mp h)]

theorem processEvents_due_eq (R : RegMap) (dol : GBASIODolphin) (cycles : Int) (env : Env)
    (h : wrap32 (dol.nextEvent - cycles) ≤ 0) :
    GBASIODolphinProcessEvents R dol cycles env
      = { dol := clamp (readCommand R (refillClock { dol with
              nextEvent := wrap32 (dol.nextEvent - cycles),
              clockSlice := wrap32 (dol.clockSlice - cycles) } env).1 env).1,
          trace := (refillClock { dol with
              nextEvent := wrap32 (dol.nextEvent - cycles),
              clockSlice := wrap32 (dol.clockSlice - cycles) } env).2
            ++ (readCommand R (refillClock { dol with
              nextEvent := wrap32 (dol.nextEvent - cycles),
              clockSlice := wrap32 (dol.clockSlice - cycles) } env).1 env).2,
          ret := (clamp (readCommand R (refillClock { dol with
              nextEvent := wrap32 (dol.nextEvent - cycles),
              clockSlice := wrap32 (dol.clockSlice - cycles) } env).1 env).1).nextEvent } := by
  unfold GBASIODolphinProcessEvents clamp
  simp only
  rw [if_pos h]

/-- The processing path: refill, data-socket read and clamp. -/
theorem processEvents_due (R : RegMap) (dol : GBASIODolphin) (cycles : Int) (env : Env)
    (h : wrap32 (dol.nextEvent - cycles) ≤ 0) :
    (GBASIODolphinProcessEvents R dol cycles env).dol.data = dol.data ∧
    (GBASIODolphinProcessEvents R dol cycles env).dol.clock = dol.clock ∧
    (GBASIODolphinProcessEvents R dol cycles env).dol.clockSlice
      = (if wrap32 (dol.clockSlice - cycles) ≤ 0 ∧ env.clockReadable = true
            ∧ (env.clockBytes.take 4).length = 4
         then wrap32 (wrap32 (dol.clockSlice - cycles) + ntohl (env.clockBytes.take 4))
         else wrap32 (dol.clockSlice - cycles)) ∧
    (GBASIODolphinProcessEvents R dol cycles env).dol.nextEvent
      = min (wrap32 (wrap32 (dol.nextEvent - cycles) + (match env.commandBytes with
          | cmd :: _ => (if u8 cmd = 0xFF ∨ u8 cmd = 0x00 then 2550
              else if u8 cmd = 0x15 ∨ u8 cmd = 0x14 then 3750 else 675)
          | [] => CLOCK_GRAIN)))
        (GBASIODolphinProcessEvents R dol cycles env).dol.clockSlice ∧
    (GBASIODolphinProcessEvents R dol cycles env).ret
      = (GBASIODolphinProcessEvents R dol cycles env).dol.nextEvent ∧
    (GBASIODolphinProcessEvents R dol cycles env).dol.io
      = (match env.commandBytes with
          | cmd :: _ => (_processCommand R dol (u8 cmd) env.buffer0 env.payload).dol.io
          | [] => dol.io) ∧
    (GBASIODolphinProcessEvents R dol cycles env).trace
      = (if wrap32 (dol.clockSlice - cycles) ≤ 0 then
          (if env.clockReadable = true then [Event.poll dol.clock, Event.recv dol.clock 4]
           else [Event.poll dol.clock])
         else [])
        ++ Event.recv dol.data 1 :: (match env.commandBytes with
          | cmd :: _ => (_processCommand R dol (u8 cmd) env.buffer0 env.payload).trace
          | [] => []) := by
  rw [processEvents_due_eq R dol cycles env h]
  simp only
  obtain ⟨f1, f2, f3, f4, f5, f6⟩ := refillClock_fields
    { dol with nextEvent := wrap32 (dol.nextEvent - cycles),
               clockSlice := wrap32 (dol.clockSlice - cycles) } env
  obtain ⟨g1, g2, g3, g4, g5, g6⟩ := readCommand_fields R (refillClock { dol with
    nextEvent := wrap32 (dol.nextEvent - cycles),
    clockSlice := wrap32 (dol.clockSlice - cycles) } env).1 env
  obtain ⟨k1, k2, k3, k4, k5⟩ := clamp_fields (readCommand R (refillClock { dol with
    nextEvent := wrap32 (dol.nextEvent - cycles),
    clockSlice := wrap32 (dol.clockSlice - cycles) } env).1 env).1
  simp only at f1 f2 f3 f4 f5 f6
  refine ⟨?_, ?_, ?_, ?_, trivial, ?_, ?_⟩
  · rw [k2, g1, f2]
  · rw [k3, g2, f3]
  · rw [k4, g3, f5]
  · rw [k5, k4, g4, g3, f4, f5]
    cases hc : env.commandBytes with
    | nil => rfl
    | cons cmd rest => simp only [processCommand_ret]
  · rw [k1, g5]
    cases hc : env.commandBytes with
    | nil => exact f1
    | cons cmd rest => exact processCommand_io_congr R dol _ (u8 cmd) _ _ f1
  · rw [f6, g6, f2]
    cases hc : env.commandBytes with
    | nil => rfl
    | cons cmd rest =>
      simp only
      rw [processCommand_trace_congr R dol _ (u8 cmd) _ _ f1 f2]

/-- What `CallExact` gives on the processing path, with the command cost written
out. -/
theorem callExact_due {R : RegMap} {dol : GBASIODolphin} {cycles : Int} {env : Env}
    (hex : CallExact R dol cycles env) (h : dol.nextEvent - cycles ≤ 0) :
    InRange32 (dol.clockSlice - cycles
      + (if dol.clockSlice - cycles ≤ 0 ∧ env.clockReadable = true
            ∧ (env.clockBytes.take 4).length = 4
         then ntohl (env.clockBytes.take 4) else 0)) ∧
    InRange32 (dol.nextEvent - cycles + (match env.commandBytes with
      | cmd :: _ => (if u8 cmd = 0xFF ∨ u8 cmd = 0x00 then 2550
          else if u8 cmd = 0x15 ∨ u8 cmd = 0x14 then 3750 else 675)
      | [] => CLOCK_GRAIN)) := by
  obtain ⟨h1, h2⟩ := hex.2.2 h
  refine ⟨h1, ?_⟩
  cases hc : env.commandBytes with
  | nil => rw [hc] at h2; exact h2
  | cons cmd rest =>
    rw [hc] at h2
    simp only [processCommand_ret] at h2
    exact h2

/-- A call that does not overflow, in exact arithmetic: the early return. -/
theorem processEvents_exact_early (R : RegMap) (dol : GBASIODolphin) (cycles : Int)
    (env : Env) (hex : CallExact R dol cycles env) (h : 0 < dol.nextEvent - cycles) :
    GBASIODolphinProcessEvents R dol cycles env
      = { dol := { dol with nextEvent := dol.nextEvent - cycles,
                            clockSlice := dol.clockSlice - cycles },
          trace := [], ret := dol.nextEvent - cycles } := by
  have hn := wrap32_of_inRange hex.1
  have hs := wrap32_of_inRange hex.2.1
  rw [processEvents_early R dol cycles env (by rw [hn]; exact h), hn, hs]

/-- A call that does not overflow, in exact arithmetic: the processing path. -/
theorem processEvents_exact_due (R : RegMap) (dol : GBASIODolphin) (cycles : Int)
    (env : Env) (hex : CallExact R dol cycles env) (h : dol.nextEvent - cycles ≤ 0) :
    (GBASIODolphinProcessEvents R dol cycles env).dol.data = dol.data ∧
    (GBASIODolphinProcessEvents R dol cycles env).dol.clock = dol.clock ∧
    (GBASIODolphinProcessEvents R dol cycles env).dol.clockSlice
      = (if dol.clockSlice - cycles ≤ 0 ∧ env.clockReadable = true
            ∧ (env.clockBytes.take 4).length = 4
         then dol.clockSlice - cycles + ntohl (env.clockBytes.take 4)
         else dol.clockSlice - cycles) ∧
    (GBASIODolphinProcessEvents R dol cycles env).dol.nextEvent
      = min (dol.nextEvent - cycles + (match env.commandBytes with
          | cmd :: _ => (if u8 cmd = 0xFF ∨ u8 cmd = 0x00 then 2550
              else if u8 cmd = 0x15 ∨ u8 cmd = 0x14 then 3750 else 675)
          | [] => CLOCK_GRAIN))
        (GBASIODolphinProcessEvents R dol cycles env).dol.clockSlice ∧
    (GBASIODolphinProcessEvents R dol cycles env).ret
      = (GBASIODolphinProcessEvents R dol cycles env).dol.nextEvent ∧
    (GBASIODolphinProcessEvents R dol cycles env).trace
      = (if dol.clockSlice - cycles ≤ 0 then
          (if env.clockReadable = true then [Event.poll dol.clock, Event.recv dol.clock 4]
           else [Event.poll dol.clock])
         else [])
        ++ Event.recv dol.data 1 :: (match env.commandBytes with
          | cmd :: _ => (_processCommand R dol (u8 cmd) env.buffer0 env.payload).trace
          | [] => []) := by
  have hn := wrap32_of_inRange hex.1
  have hs := wrap32_of_inRange hex.2.1
  obtain ⟨e1, e2⟩ := callExact_due hex h
  obtain ⟨d1, d2, d3, d4, d5, -, d7⟩ :=
    processEvents_due R dol cycles env (by rw [hn]; exact h)
  rw [hn] at d4
  rw [hs] at d3 d7
  rw [wrap32_of_inRange e2] at d4
  refine ⟨d1, d2, ?_, d4, d5, d7⟩
  rw [d3]
  by_cases hc : dol.clockSlice - cycles ≤ 0 ∧ env.clockReadable = true
      ∧ (env.clockBytes.take 4).length = 4
  · rw [if_pos hc] at e1
    rw [if_pos hc, if_pos hc, wrap32_of_inRange e1]
  · rw [if_neg hc, if_neg hc]

/-! ## Cycle-budget scheduling: the budget clamp -/

/-- One call that does not overflow keeps the countdown within the budget: when
`nextEvent ≤ clockSlice` holds before, the value returned is the new `nextEvent` and
is at most the new `clockSlice`. -/
theorem processEvents_step (R : RegMap) (dol : GBASIODolphin) (cycles : Int) (env : Env)
    (hex : CallExact R dol cycles env) (h : dol.nextEvent ≤ dol.clockSlice) :
    (GBASIODolphinProcessEvents R dol cycles env).ret
      = (GBASIODolphinProcessEvents R dol cycles env).dol.nextEvent ∧
    (GBASIODolphinProcessEvents R dol cycles env).ret
      ≤ (GBASIODolphinProcessEvents R dol cycles env).dol.clockSlice := by
  by_cases hn : 0 < dol.nextEvent - cycles
  · rw [processEvents_exact_early R dol cycles env hex hn]
    refine ⟨rfl, ?_⟩
    simp only
    omega
  · obtain ⟨-, -, -, d4, d5, -⟩ := processEvents_exact_due R dol cycles env hex (not_lt.mp hn)
    refine ⟨d5, ?_⟩
    rw [d5, d4]
    exact min_le_right _ _

theorem runEvents_invariant (R : RegMap) (calls : List (Int × Env)) :
    ∀ dol : GBASIODolphin, dol.nextEvent ≤ dol.clockSlice → RunExact R dol calls →
      ∀ o ∈ runEvents R dol calls, o.ret ≤ o.dol.clockSlice := by
  induction calls with
  | nil => intro dol _ _ o ho; simp [runEvents] at ho
  | cons c rest ih =>
    intro dol h hex o ho
    obtain ⟨cycles, env⟩ := c
    simp only [runEvents, List.mem_cons] at ho
    have hs := processEvents_step R dol cycles env hex.1 h
    rcases ho with rfl | ho
    · exact hs.2
    · exact ih _ (hs.1 ▸ hs.2) hex.2 o ho

/-- Claim C10.  After `GBASIODolphinLoad`, for every sequence of
`GBASIODolphinProcessEvents` calls in which no 32-bit overflow happens, with any
elapsed cycles and anything delivered by the two sockets, the value each call
returns is at most `clockSlice` as it stands after that call, on the early-return
path and on the processing path alike; on the processing path the clamp gives the
bound from any state, overflow or not.  With one grant of 1000 and an idle data
socket the calls with 0, 100 and 500 elapsed cycles return 600, 500 and 400 against
budgets of 1000, 900 and 400. -/
theorem processEvents_within_budget (R : RegMap) (dol : GBASIODolphin)
    (calls : List (Int × Env)) (hex : RunExact R (GBASIODolphinLoad dol).dol calls) :
    (∀ o ∈ runEvents R (GBASIODolphinLoad dol).dol calls, o.ret ≤ o.dol.clockSlice) ∧
    (∀ (d : GBASIODolphin) (cycles : Int) (env : Env), wrap32 (d.nextEvent - cycles) ≤ 0 →
      (GBASIODolphinProcessEvents R d cycles env).ret
        ≤ (GBASIODolphinProcessEvents R d cycles env).dol.clockSlice) ∧
    (runEvents gbaRegs (GBASIODolphinLoad sampleDol).dol
        [(0, grant1000), (100, idleEnv), (500, idleEnv)]).map
      (fun o => (o.ret, o.dol.clockSlice, o.trace.length))
      = [(600, 1000, 3), (500, 900, 0), (400, 400, 1)] := by
  refine ⟨runEvents_invariant R calls _ (le_refl _) hex, ?_, ?_⟩
  · intro d cycles env hdue
    obtain ⟨-, -, -, d4, d5, -, -⟩ := processEvents_due R d cycles env hdue
    rw [d5, d4]
    exact min_le_right _ _
  · decide

/-- Claim C10, instance: the run with one grant of 1000 and an idle data socket does
not overflow and every value returned is within the budget. -/
theorem processEvents_within_budget_witness :
    RunExact gbaRegs (GBASIODolphinLoad sampleDol).dol
      [(0, grant1000), (100, idleEnv), (500, idleEnv)] ∧
    (∀ o ∈ runEvents gbaRegs (GBASIODolphinLoad sampleDol).dol
        [(0, grant1000), (100, idleEnv), (500, idleEnv)], o.ret ≤ o.dol.clockSlice) :=
  ⟨⟨by decide, by decide, by decide, trivial⟩,
    (processEvents_within_budget gbaRegs sampleDol
      [(0, grant1000), (100, idleEnv), (500, idleEnv)]
      ⟨by decide, by decide, by decide, trivial⟩).1⟩

/-! ## Cycle-budget scheduling against the reference algorithm -/

theorem ntohl_eq_bigEndian (bytes : List Nat) (hlen : bytes.length = 4)
    (hb : ∀ b ∈ bytes, b < 256) : ntohl bytes = bigEndianInt32 bytes := by
  match bytes, hlen with
  | [a, b, c, d], _ =>
    have ha : a < 256 := hb a (by simp)
    have hb2 : b < 256 := hb b (by simp)
    have hc : c < 256 := hb c (by simp)
    have hd : d < 256 := hb d (by simp)
    have hsum : a * 2 ^ 24 + b * 2 ^ 16 + c * 2 ^ 8 + d < 2 ^ 32 := by omega
    simp only [ntohl, bigEndianInt32, toInt32, u8, List.getD_cons_zero, List.getD_cons_succ,
      Nat.mod_eq_of_lt ha, Nat.mod_eq_of_lt hb2, Nat.mod_eq_of_lt hc, Nat.mod_eq_of_lt hd,
      Nat.mod_eq_of_lt hsum]
    by_cases h31 : a * 2 ^ 24 + b * 2 ^ 16 + c * 2 ^ 8 + d < 2 ^ 31
    · have h31z : (((a : Int) * 256 + b) * 256 + c) * 256 + d < 2 ^ 31 := by
        have := h31
        zify at this
        omega
      rw [if_pos h31, if_pos h31z]
      push_cast
      ring
    · have h31z : ¬ ((((a : Int) * 256 + b) * 256 + c) * 256 + d < 2 ^ 31) := by
        intro hz
        apply h31
        zify
        omega
      rw [if_neg h31, if_neg h31z]
      push_cast
      ring

theorem specCost_eq (command : Nat) :
    specCost command = if command = 0xFF ∨ command = 0x00 then 2550
      else if command = 0x15 ∨ command = 0x14 then 3750 else 675 := by
  unfold specCost extraBits
  split
  · norm_num
  · split <;> norm_num

theorem processCommand_trace_events (R : RegMap) (dol : GBASIODolphin) (command : Nat)
    (buffer0 : Nat → Nat) (payload : List Nat) :
    ∀ e ∈ (_processCommand R dol command buffer0 payload).trace,
      e = Event.irq ∨ (∃ bytes, e = Event.send dol.data bytes) ∨ e = Event.recv dol.data 4 := by
  intro e he
  unfold _processCommand pollResponse raiseIfEnabled at he
  split_ifs at he <;> simp at he <;> aesop

/-- Claim C11, as stated, fails when a subtraction overflows.  From the state reached
after `GBASIODolphinLoad` by a grant of 80 00 00 00 (both counters at -2147483648), a
call with one elapsed cycle returns 2147483647 on the early return, where the
reference algorithm takes the processing path and returns -2147483649. -/
theorem processEvents_overflow_departs_from_spec :
    minDol.nextEvent = -2147483648 ∧ minDol.clockSlice = -2147483648 ∧
    (GBASIODolphinProcessEvents gbaRegs minDol 1 idleEnv).ret = 2147483647 ∧
    specProcessEvents minDol.nextEvent minDol.clockSlice 1 idleEnv
      = (-2147483649, -2147483649, -2147483649) ∧
    ((GBASIODolphinProcessEvents gbaRegs minDol 1 idleEnv).ret,
      (GBASIODolphinProcessEvents gbaRegs minDol 1 idleEnv).dol.nextEvent,
      (GBASIODolphinProcessEvents gbaRegs minDol 1 idleEnv).dol.clockSlice)
      ≠ specProcessEvents minDol.nextEvent minDol.clockSlice 1 idleEnv := by
  decide

/-- Claim C11, amended.  Whenever no store of the call overflows 32 bits,
`GBASIODolphinProcessEvents` computes what the reference algorithm of the specification
computes: the value returned and the two counters afterwards are those of
`specProcessEvents`, for every state, every elapsed-cycle count and everything the
sockets may deliver (bytes).  On the early return no external call is made; when
`clockSlice` is still positive after the subtraction, `SocketPoll` is not called
and, the two handles being different, no call touches the clock socket. -/
theorem processEvents_refines_spec (R : RegMap) (dol : GBASIODolphin) (cycles : Int)
    (env : Env) (hb : env.Bytes) (hex : CallExact R dol cycles env) :
    ((GBASIODolphinProcessEvents R dol cycles env).ret,
      (GBASIODolphinProcessEvents R dol cycles env).dol.nextEvent,
      (GBASIODolphinProcessEvents R dol cycles env).dol.clockSlice)
      = specProcessEvents dol.nextEvent dol.clockSlice cycles env ∧
    (0 < dol.nextEvent - cycles → (GBASIODolphinProcessEvents R dol cycles env).trace = []) ∧
    (0 < dol.clockSlice - cycles →
      (∀ sock, Event.poll sock ∉ (GBASIODolphinProcessEvents R dol cycles env).trace) ∧
      (dol.clock ≠ dol.data → ∀ k,
        Event.recv dol.clock k ∉ (GBASIODolphinProcessEvents R dol cycles env).trace)) := by
  refine ⟨?_, ?_, ?_⟩
  · unfold specProcessEvents
    simp only
    by_cases h : 0 < dol.nextEvent - cycles
    · rw [processEvents_exact_early R dol cycles env hex h, if_pos h]
    · have hle : dol.nextEvent - cycles ≤ 0 := not_lt.mp h
      obtain ⟨-, -, hs, hn, hr, -⟩ := processEvents_exact_due R dol cycles env hex hle
      have hs2 : (GBASIODolphinProcessEvents R dol cycles env).dol.clockSlice
          = (if dol.clockSlice - cycles ≤ 0 ∧ env.clockReadable = true
                ∧ (env.clockBytes.take 4).length = 4
             then dol.clockSlice - cycles + bigEndianInt32 (env.clockBytes.take 4)
             else dol.clockSlice - cycles) := by
        rw [hs]
        by_cases hc : dol.clockSlice - cycles ≤ 0 ∧ env.clockReadable = true
            ∧ (env.clockBytes.take 4).length = 4
        · rw [if_pos hc, if_pos hc, ntohl_eq_bigEndian _ hc.2.2
            (fun b hm => hb.1 b (List.mem_of_mem_take hm))]
        · rw [if_neg hc, if_neg hc]
      have hn2 : (match env.commandBytes with
          | cmd :: _ => (if u8 cmd = 0xFF ∨ u8 cmd = 0x00 then (2550 : Int)
              else if u8 cmd = 0x15 ∨ u8 cmd = 0x14 then 3750 else 675)
          | [] => CLOCK_GRAIN)
          = (match env.commandBytes with
          | cmd :: _ => specCost cmd
          | [] => 8 * 75) := by
        cases hc : env.commandBytes with
        | nil => simp [CLOCK_GRAIN, CYCLES_PER_BIT]
        | cons cmd rest =>
          have hlt : cmd < 256 := hb.2.1 cmd (by rw [hc]; simp)
          have hu : u8 cmd = cmd := Nat.mod_eq_of_lt hlt
          simp only [hu, specCost_eq]
      have hn3 : (match env.commandBytes with
          | cmd :: _ => dol.nextEvent - cycles + specCost cmd
          | [] => dol.nextEvent - cycles + 8 * 75)
          = dol.nextEvent - cycles + (match env.commandBytes with
          | cmd :: _ => specCost cmd
          | [] => 8 * 75) := by
        cases env.commandBytes <;> rfl
      rw [if_neg h, hr, hn, hn2, hn3, hs2]
  · intro h
    rw [processEvents_exact_early R dol cycles env hex h]
  · intro hs
    by_cases h : 0 < dol.nextEvent - cycles
    · rw [processEvents_exact_early R dol cycles env hex h]
      simp
    · obtain ⟨-, -, -, -, -, ht⟩ := processEvents_exact_due R dol cycles env hex (not_lt.mp h)
      rw [ht, if_neg (not_le.mpr hs)]
      have hcmd : ∀ e ∈ (match env.commandBytes with
          | cmd :: _ => (_processCommand R dol (u8 cmd) env.buffer0 env.payload).trace
          | [] => []),
          e = Event.irq ∨ (∃ bytes, e = Event.send dol.data bytes)
            ∨ e = Event.recv dol.data 4 := by
        cases env.commandBytes with
        | nil => intro e he; simp at he
        | cons cmd rest => exact processCommand_trace_events R dol (u8 cmd) _ _
      constructor
      · intro sock hm
        simp only [List.nil_append, List.mem_cons] at hm
        rcases hm with hm | hm
        · cases hm
        · rcases hcmd _ hm with h1 | ⟨_, h1⟩ | h1 <;> cases h1
      · intro hne k hm
        simp only [List.nil_append, List.mem_cons] at hm
        rcases hm with hm | hm
        · injection hm with h1 h2
          exact hne h1
        · rcases hcmd _ hm with h1 | ⟨_, h1⟩ | h1
          · cases h1
          · cases h1
          · injection h1 with h2 h3
            exact hne h2

/-- Claim C11, amended, instance: from zeroed counters, a grant of 1000 together with
a Reset command gives the return value 1000 (the cost 2550 clamped to the budget),
with no overflow. -/
theorem processEvents_refines_spec_witness :
    resetEnv.Bytes ∧ CallExact gbaRegs sampleDol 0 resetEnv ∧
    ((GBASIODolphinProcessEvents gbaRegs sampleDol 0 resetEnv).ret,
      (GBASIODolphinProcessEvents gbaRegs sampleDol 0 resetEnv).dol.nextEvent,
      (GBASIODolphinProcessEvents gbaRegs sampleDol 0 resetEnv).dol.clockSlice)
      = specProcessEvents 0 0 0 resetEnv ∧
    specProcessEvents 0 0 0 resetEnv = (1000, 1000, 1000) :=
  ⟨by decide, by decide,
    (processEvents_refines_spec gbaRegs sampleDol 0 resetEnv (by decide) (by decide)).1,
    by decide⟩

theorem noGrant_cond {env : Env} (h : env.NoGrant) (s : Int) :
    ¬ (s ≤ 0 ∧ env.clockReadable = true ∧ (env.clockBytes.take 4).length = 4) := by
  rintro ⟨-, h1, h2⟩
  rcases h with h | h
  · rw [h] at h1; cases h1
  · omega

/-- Claim C12, as stated, fails when the subtraction overflows: with `clockSlice` at
-2147483648, one elapsed cycle and a clock socket that is not readable,
`clockSlice` afterwards is 2147483647, not -2147483648 - 1. -/
theorem processEvents_short_read_overflow :
    idleEnv.clockReadable = false ∧ minDol.clockSlice = -2147483648 ∧
    (GBASIODolphinProcessEvents gbaRegs minDol 1 idleEnv).dol.clockSlice = 2147483647 ∧
    (GBASIODolphinProcessEvents gbaRegs minDol 1 idleEnv).dol.clockSlice
      ≠ minDol.clockSlice - 1 := by
  decide

/-- Claim C12, amended.  When the clock socket is not readable, or its four-byte read
delivers fewer than four bytes, a `GBASIODolphinProcessEvents` call applies no grant,
whatever bytes the short read delivered: `clockSlice` afterwards is `clockSlice`
before minus the elapsed cycles as a 32-bit value, which is exactly that difference
whenever the difference fits 32 bits. -/
theorem processEvents_short_read (R : RegMap) (dol : GBASIODolphin) (cycles : Int)
    (env : Env) (h : env.clockReadable = false ∨ (env.clockBytes.take 4).length < 4) :
    (GBASIODolphinProcessEvents R dol cycles env).dol.clockSlice
      = wrap32 (dol.clockSlice - cycles) ∧
    (InRange32 (dol.clockSlice - cycles) →
      (GBASIODolphinProcessEvents R dol cycles env).dol.clockSlice
        = dol.clockSlice - cycles) := by
  have hw : (GBASIODolphinProcessEvents R dol cycles env).dol.clockSlice
      = wrap32 (dol.clockSlice - cycles) := by
    by_cases hn : 0 < wrap32 (dol.nextEvent - cycles)
    · rw [processEvents_early R dol cycles env hn]
    · obtain ⟨-, -, hs, -, -, -, -⟩ := processEvents_due R dol cycles env (not_lt.mp hn)
      rw [hs, if_neg (noGrant_cond h _)]
  exact ⟨hw, fun hr => by rw [hw, wrap32_of_inRange hr]⟩

/-- Claim C12, amended, instance: three bytes on a readable clock socket leave the
budget at 0 - 0 = 0. -/
theorem processEvents_short_read_witness :
    (shortClock.clockReadable = false ∨ (shortClock.clockBytes.take 4).length < 4) ∧
    InRange32 (sampleDol.clockSlice - 0) ∧
    (GBASIODolphinProcessEvents gbaRegs sampleDol 0 shortClock).dol.clockSlice
      = sampleDol.clockSlice - 0 :=
  ⟨by decide, by decide,
    (processEvents_short_read gbaRegs sampleDol 0 shortClock (by decide)).2 (by decide)⟩

theorem sentOn_nil_of_no_send (sock : Int) (tr : List Event)
    (h : ∀ s bytes, Event.send s bytes ∉ tr) : sentOn sock tr = [] := by
  induction tr with
  | nil => rfl
  | cons e rest ih =>
    have hrest : ∀ s bytes, Event.send s bytes ∉ rest :=
      fun s bytes hm => h s bytes (List.mem_cons_of_mem _ hm)
    cases e with
    | send s bytes => exact absurd (List.mem_cons_self _ _) (h s bytes)
    | recv s k => simpa [sentOn] using ih hrest
    | poll s => simpa [sentOn] using ih hrest
    | irq => simpa [sentOn] using ih hrest
    | close s => simpa [sentOn] using ih hrest
    | connectTCP q => simpa [sentOn] using ih hrest
    | setBlocking s f => simpa [sentOn] using ih hrest
    | setTCPPush s f => simpa [sentOn] using ih hrest

/-- Claim C18.  `GBASIODolphinProcessEvents` reaches the register file and the interrupt
line only through `_processCommand`.  On the early return (`nextEvent`, as stored
after the subtraction, still positive) it makes no external call
and leaves the register file alone; when a step is due and the data socket
delivers no byte, the register file is unchanged, no interrupt is raised and
nothing is sent; and when a byte is delivered, the register file afterwards and the
interrupts raised are those of the dispatch of that byte. -/
theorem processEvents_registers_via_dispatch (R : RegMap) (dol : GBASIODolphin)
    (cycles : Int) (env : Env) :
    (0 < wrap32 (dol.nextEvent - cycles) →
      (GBASIODolphinProcessEvents R dol cycles env).trace = [] ∧
      (GBASIODolphinProcessEvents R dol cycles env).dol.io = dol.io) ∧
    (wrap32 (dol.nextEvent - cycles) ≤ 0 → env.commandBytes = [] →
      (GBASIODolphinProcessEvents R dol cycles env).dol.io = dol.io ∧
      irqCount (GBASIODolphinProcessEvents R dol cycles env).trace = 0 ∧
      (∀ sock bytes,
        Event.send sock bytes ∉ (GBASIODolphinProcessEvents R dol cycles env).trace) ∧
      sentOn dol.data (GBASIODolphinProcessEvents R dol cycles env).trace = []) ∧
    (∀ cmd rest, wrap32 (dol.nextEvent - cycles) ≤ 0 → env.commandBytes = cmd :: rest →
      (GBASIODolphinProcessEvents R dol cycles env).dol.io
        = (_processCommand R dol (u8 cmd) env.buffer0 env.payload).dol.io ∧
      irqCount (GBASIODolphinProcessEvents R dol cycles env).trace
        = irqCount (_processCommand R dol (u8 cmd) env.buffer0 env.payload).trace) := by
  refine ⟨?_, ?_, ?_⟩
  · intro h
    rw [processEvents_early R dol cycles env h]
    exact ⟨rfl, rfl⟩
  · intro h hc
    obtain ⟨-, -, -, -, -, hio, ht⟩ := processEvents_due R dol cycles env h
    rw [hc] at hio ht
    simp only at hio ht
    have hnosend : ∀ sock bytes,
        Event.send sock bytes ∉ (GBASIODolphinProcessEvents R dol cycles env).trace := by
      intro sock bytes hm
      rw [ht] at hm
      split_ifs at hm <;> simp at hm
    refine ⟨hio, ?_, hnosend, sentOn_nil_of_no_send _ _ hnosend⟩
    rw [ht]
    unfold irqCount
    split_ifs <;> simp
  · intro cmd rest h hc
    obtain ⟨-, -, -, -, -, hio, ht⟩ := processEvents_due R dol cycles env h
    rw [hc] at hio ht
    simp only at hio ht
    refine ⟨hio, ?_⟩
    rw [ht, irqCount_append]
    have h0 : irqCount (if wrap32 (dol.clockSlice - cycles) ≤ 0 then
          (if env.clockReadable = true then [Event.poll dol.clock, Event.recv dol.clock 4]
           else [Event.poll dol.clock])
         else []) = 0 := by
      unfold irqCount
      split_ifs <;> simp
    rw [h0]
    unfold irqCount
    simp

/-- Claim C18, instance: with a countdown of 0 and an idle data socket, the step that
is due raises no interrupt and returns the register file as it was. -/
theorem processEvents_registers_via_dispatch_witness :
    wrap32 (sampleDol.nextEvent - 0) ≤ 0 ∧ grant1000.commandBytes = [] ∧
    (GBASIODolphinProcessEvents gbaRegs sampleDol 0 grant1000).dol.io = sampleDol.io ∧
    irqCount (GBASIODolphinProcessEvents gbaRegs sampleDol 0 grant1000).trace = 0 :=
  ⟨by decide, rfl,
    ((processEvents_registers_via_dispatch gbaRegs sampleDol 0 grant1000).2.1
      (by decide) rfl).1,
    ((processEvents_registers_via_dispatch gbaRegs sampleDol 0 grant1000).2.1
      (by decide) rfl).2.1⟩

/-! ## Scheduling without a grant -/

theorem processEvents_no_grant_step (R : RegMap) (dol : GBASIODolphin) (cycles : Int)
    (env : Env) (hc : 0 ≤ cycles) (hg : env.NoGrant) (hex : CallExact R dol cycles env)
    (hn : dol.nextEvent ≤ dol.clockSlice) (hs : dol.clockSlice ≤ 0) :
    (GBASIODolphinProcessEvents R dol cycles env).ret ≤ 0 ∧
    (GBASIODolphinProcessEvents R dol cycles env).dol.nextEvent
      ≤ (GBASIODolphinProcessEvents R dol cycles env).dol.clockSlice ∧
    (GBASIODolphinProcessEvents R dol cycles env).dol.clockSlice ≤ 0 ∧
    (GBASIODolphinProcessEvents R dol cycles env).dol.clock = dol.clock ∧
    (GBASIODolphinProcessEvents R dol cycles env).dol.data = dol.data ∧
    (GBASIODolphinProcessEvents R dol cycles env).trace.head? = some (Event.poll dol.clock) ∧
    Event.recv dol.data 1 ∈ (GBASIODolphinProcessEvents R dol cycles env).trace := by
  have hdue : dol.nextEvent - cycles ≤ 0 := by omega
  have hs1 : dol.clockSlice - cycles ≤ 0 := by omega
  obtain ⟨hd, hck, hsl, hne, hr, ht⟩ := processEvents_exact_due R dol cycles env hex hdue
  rw [if_neg (noGrant_cond hg _)] at hsl
  have hle : (GBASIODolphinProcessEvents R dol cycles env).dol.nextEvent
      ≤ (GBASIODolphinProcessEvents R dol cycles env).dol.clockSlice := by
    rw [hne]
    exact min_le_right _ _
  refine ⟨?_, hle, ?_, hck, hd, ?_, ?_⟩
  · rw [hr]
    calc (GBASIODolphinProcessEvents R dol cycles env).dol.nextEvent
        ≤ (GBASIODolphinProcessEvents R dol cycles env).dol.clockSlice := hle
      _ ≤ 0 := by rw [hsl]; exact hs1
  · rw [hsl]; exact hs1
  · rw [ht, if_pos hs1]
    split_ifs <;> rfl
  · rw [ht]
    simp

theorem runEvents_no_grant_invariant (R : RegMap) (clock data : Int)
    (calls : List (Int × Env)) :
    ∀ dol : GBASIODolphin, dol.nextEvent ≤ dol.clockSlice → dol.clockSlice ≤ 0 →
      dol.clock = clock → dol.data = data →
      (∀ c ∈ calls, 0 ≤ c.1 ∧ c.2.NoGrant) → RunExact R dol calls →
      ∀ o ∈ runEvents R dol calls,
        o.ret ≤ 0 ∧ o.trace.head? = some (Event.poll clock) ∧ Event.recv data 1 ∈ o.trace := by
  induction calls with
  | nil => intro dol _ _ _ _ _ _ o ho; simp [runEvents] at ho
  | cons c rest ih =>
    intro dol hn hs hck hd hall hex o ho
    obtain ⟨cycles, env⟩ := c
    have hc := hall (cycles, env) (List.mem_cons_self _ _)
    obtain ⟨s1, s2, s3, s4, s5, s6, s7⟩ :=
      processEvents_no_grant_step R dol cycles env hc.1 hc.2 hex.1 hn hs
    simp only [runEvents, List.mem_cons] at ho
    rcases ho with rfl | ho
    · rw [hck] at s6
      rw [hd] at s7
      exact ⟨s1, s6, s7⟩
    · exact ih _ s2 s3 (s4.trans hck) (s5.trans hd)
        (fun c hm => hall c (List.mem_cons_of_mem _ hm)) hex.2 o ho

/-- Claim C19, as stated, fails when the countdown overflows: after
`GBASIODolphinLoad`, two calls with 2147483647 elapsed cycles each, both sockets
idle (no grant), return -2147483647 and then 2; the second call returns early,
without polling the clock socket or reading the data socket. -/
theorem processEvents_no_grant_overflow :
    (∀ c ∈ [((2147483647 : Int), idleEnv), (2147483647, idleEnv)], 0 ≤ c.1 ∧ c.2.NoGrant) ∧
    (runEvents gbaRegs (GBASIODolphinLoad sampleDol).dol
        [((2147483647 : Int), idleEnv), (2147483647, idleEnv)]).map
      (fun o => (o.ret, o.trace)) =
      [(-2147483647, [Event.poll 4, Event.recv 3 1]), (2, [])] ∧
    ¬ (∀ o ∈ runEvents gbaRegs (GBASIODolphinLoad sampleDol).dol
        [((2147483647 : Int), idleEnv), (2147483647, idleEnv)],
      o.ret ≤ 0 ∧ o.trace.head? = some (Event.poll sampleDol.clock) ∧
        Event.recv sampleDol.data 1 ∈ o.trace) := by
  refine ⟨by decide, by decide, ?_⟩
  intro h
  have h2 := (h (GBASIODolphinProcessEvents gbaRegs
    (GBASIODolphinProcessEvents gbaRegs (GBASIODolphinLoad sampleDol).dol 2147483647
      idleEnv).dol 2147483647 idleEnv) (by simp [runEvents])).1
  revert h2
  decide

/-- Claim C19, amended.  From `GBASIODolphinLoad` on, in every sequence of
`GBASIODolphinProcessEvents` calls with non-negative elapsed cycles in which no
four-byte grant arrives on the clock socket and no 32-bit overflow happens, every
call takes the processing path (it starts by polling the clock socket and reads the
data socket) and returns a value that is at most 0, whatever the data socket
delivers. -/
theorem processEvents_no_grant (R : RegMap) (dol : GBASIODolphin) (calls : List (Int × Env))
    (h : ∀ c ∈ calls, 0 ≤ c.1 ∧ c.2.NoGrant)
    (hex : RunExact R (GBASIODolphinLoad dol).dol calls) :
    ∀ o ∈ runEvents R (GBASIODolphinLoad dol).dol calls,
      o.ret ≤ 0 ∧ o.trace.head? = some (Event.poll dol.clock) ∧
        Event.recv dol.data 1 ∈ o.trace :=
  runEvents_no_grant_invariant R dol.clock dol.data calls (GBASIODolphinLoad dol).dol
    (le_refl _) (le_refl _) rfl rfl h hex

/-- Claim C19, amended, instance: two calls with an idle and a short-read clock
socket, 0 and 100 elapsed cycles, do not overflow and return 0 and -100. -/
theorem processEvents_no_grant_witness :
    (∀ c ∈ [((0 : Int), idleEnv), (100, shortClock)], 0 ≤ c.1 ∧ c.2.NoGrant) ∧
    RunExact gbaRegs (GBASIODolphinLoad sampleDol).dol
      [((0 : Int), idleEnv), (100, shortClock)] ∧
    (∀ o ∈ runEvents gbaRegs (GBASIODolphinLoad sampleDol).dol
        [((0 : Int), idleEnv), (100, shortClock)],
      o.ret ≤ 0 ∧ o.trace.head? = some (Event.poll sampleDol.clock) ∧
        Event.recv sampleDol.data 1 ∈ o.trace) ∧
    (runEvents gbaRegs (GBASIODolphinLoad sampleDol).dol
        [((0 : Int), idleEnv), (100, shortClock)]).map (fun o => o.ret) = [0, -100] :=
  ⟨by decide, ⟨by decide, by decide, trivial⟩,
    processEvents_no_grant gbaRegs sampleDol [((0 : Int), idleEnv), (100, shortClock)]
      (by decide) ⟨by decide, by decide, trivial⟩,
    by decide⟩

/-! ## Connection lifecycle: properties -/

theorem closeIfOpen_failed (S : SocketLib) (hS : S.SOCKET_FAILED S.INVALID_SOCKET = true)
    (sock : Int) : S.SOCKET_FAILED (closeIfOpen S sock).1 = true := by
  unfold closeIfOpen
  split_ifs with h
  · exact hS
  · simpa using h

theorem closeIfOpen_of_failed (S : SocketLib) (sock : Int) (h : S.SOCKET_FAILED sock = true) :
    closeIfOpen S sock = (sock, []) := by
  unfold closeIfOpen
  rw [if_neg (by simp [h])]

theorem closeIfOpen_trace (S : SocketLib) (sock : Int) :
    (closeIfOpen S sock).2 = if S.SOCKET_FAILED sock = false then [Event.close sock] else [] := by
  unfold closeIfOpen
  split_ifs <;> rfl

theorem closedSockets_append (a b : List Event) :
    closedSockets (a ++ b) = closedSockets a ++ closedSockets b := by
  induction a with
  | nil => rfl
  | cons e rest ih => cases e <;> simp [closedSockets, ih]

theorem connectPorts_append (a b : List Event) :
    connectPorts (a ++ b) = connectPorts a ++ connectPorts b := by
  induction a with
  | nil => rfl
  | cons e rest ih => cases e <;> simp [connectPorts, ih]

theorem connectPorts_closeIfOpen (S : SocketLib) (sock : Int) :
    connectPorts (closeIfOpen S sock).2 = [] := by
  unfold closeIfOpen
  split_ifs <;> rfl

/-- Claim C16.  `GBASIODolphinDestroy` leaves both channels absent; its external calls
are one `SocketClose` for each channel that was connected (data first) and none for
an absent channel; a second call makes no external call and returns the state of
the first; the counters and the register file are not touched. -/
theorem destroy_idempotent (S : SocketLib) (dol : GBASIODolphin)
    (hS : S.SOCKET_FAILED S.INVALID_SOCKET = true) :
    S.SOCKET_FAILED (GBASIODolphinDestroy S dol).dol.data = true ∧
    S.SOCKET_FAILED (GBASIODolphinDestroy S dol).dol.clock = true ∧
    (GBASIODolphinDestroy S dol).trace
      = (if S.SOCKET_FAILED dol.data = false then [Event.close dol.data] else [])
        ++ (if S.SOCKET_FAILED dol.clock = false then [Event.close dol.clock] else []) ∧
    (GBASIODolphinDestroy S (GBASIODolphinDestroy S dol).dol).trace = [] ∧
    (GBASIODolphinDestroy S (GBASIODolphinDestroy S dol).dol).dol
      = (GBASIODolphinDestroy S dol).dol ∧
    (GBASIODolphinDestroy S dol).dol.nextEvent = dol.nextEvent ∧
    (GBASIODolphinDestroy S dol).dol.clockSlice = dol.clockSlice ∧
    (GBASIODolphinDestroy S dol).dol.io = dol.io := by
  have hd := closeIfOpen_failed S hS dol.data
  have hc := closeIfOpen_failed S hS dol.clock
  refine ⟨hd, hc, ?_, ?_, ?_, rfl, rfl, rfl⟩
  · simp only [GBASIODolphinDestroy, closeIfOpen_trace]
  · simp only [GBASIODolphinDestroy]
    rw [closeIfOpen_of_failed S _ hd, closeIfOpen_of_failed S _ hc]
    rfl
  · simp only [GBASIODolphinDestroy]
    rw [closeIfOpen_of_failed S _ hd, closeIfOpen_of_failed S _ hc]

/-- Claim C16, instance: with sockets 3 and 4 connected, teardown closes 3 then 4 and
a second teardown closes nothing. -/
theorem destroy_idempotent_witness :
    posixSockets.SOCKET_FAILED posixSockets.INVALID_SOCKET = true ∧
    (GBASIODolphinDestroy posixSockets sampleDol).trace = [Event.close 3, Event.close 4] ∧
    (GBASIODolphinDestroy posixSockets (GBASIODolphinDestroy posixSockets sampleDol).dol).trace
      = [] :=
  ⟨by decide, (destroy_idempotent posixSockets sampleDol (by decide)).2.2.1,
    (destroy_idempotent posixSockets sampleDol (by decide)).2.2.2.1⟩

/-- Claim C14.  `GBASIODolphinConnect` is all or nothing.  It returns true exactly when
both `SocketConnectTCP` calls succeed; then both channels hold the new handles.
When it returns false both channels are absent: if the data open fails, no second
`SocketConnectTCP` is made; if the data open succeeds and the clock open fails, the
new data handle is closed and the data channel reset to `INVALID_SOCKET`.  The
closes of the channels that were connected before come first in the trace, ahead
of the first `SocketConnectTCP`. -/
theorem connect_all_or_nothing (S : SocketLib) (dol : GBASIODolphin)
    (dataPort clockPort dataOpen clockOpen : Int)
    (hS : S.SOCKET_FAILED S.INVALID_SOCKET = true) :
    ((GBASIODolphinConnect S dol dataPort clockPort dataOpen clockOpen).ret = true ↔
      (S.SOCKET_FAILED dataOpen = false ∧ S.SOCKET_FAILED clockOpen = false)) ∧
    ((GBASIODolphinConnect S dol dataPort clockPort dataOpen clockOpen).ret = true →
      (GBASIODolphinConnect S dol dataPort clockPort dataOpen clockOpen).dol.data = dataOpen ∧
      (GBASIODolphinConnect S dol dataPort clockPort dataOpen clockOpen).dol.clock = clockOpen ∧
      S.SOCKET_FAILED
        (GBASIODolphinConnect S dol dataPort clockPort dataOpen clockOpen).dol.data = false ∧
      S.SOCKET_FAILED
        (GBASIODolphinConnect S dol dataPort clockPort dataOpen clockOpen).dol.clock = false) ∧
    ((GBASIODolphinConnect S dol dataPort clockPort dataOpen clockOpen).ret = false →
      S.SOCKET_FAILED
        (GBASIODolphinConnect S dol dataPort clockPort dataOpen clockOpen).dol.data = true ∧
      S.SOCKET_FAILED
        (GBASIODolphinConnect S dol dataPort clockPort dataOpen clockOpen).dol.clock = true) ∧
    (S.SOCKET_FAILED dataOpen = false → S.SOCKET_FAILED clockOpen = true →
      (GBASIODolphinConnect S dol dataPort clockPort dataOpen clockOpen).dol.data
        = S.INVALID_SOCKET ∧
      closedSockets (GBASIODolphinConnect S dol dataPort clockPort dataOpen clockOpen).trace
        = closedSockets ((closeIfOpen S dol.data).2 ++ (closeIfOpen S dol.clock).2)
          ++ [dataOpen]) ∧
    (S.SOCKET_FAILED dataOpen = true →
      (connectPorts
        (GBASIODolphinConnect S dol dataPort clockPort dataOpen clockOpen).trace).length = 1) ∧
    (∃ port rest, (GBASIODolphinConnect S dol dataPort clockPort dataOpen clockOpen).trace
      = ((if S.SOCKET_FAILED dol.data = false then [Event.close dol.data] else [])
          ++ (if S.SOCKET_FAILED dol.clock = false then [Event.close dol.clock] else []))
        ++ Event.connectTCP port :: rest) := by
  have hc := closeIfOpen_failed S hS dol.clock
  cases hd : S.SOCKET_FAILED dataOpen with
  | true =>
    have hco : GBASIODolphinConnect S dol dataPort clockPort dataOpen clockOpen
        = { dol := { dol with data := dataOpen, clock := (closeIfOpen S dol.clock).1 },
            trace := (closeIfOpen S dol.data).2 ++ (closeIfOpen S dol.clock).2
              ++ [Event.connectTCP
                (if dataPort = 0 then toInt16 DOLPHIN_DATA_PORT else dataPort)],
            ret := false } := by
      simp only [GBASIODolphinConnect, hd, if_true]
    rw [hco]
    refine ⟨by simp, by simp, fun _ => ⟨hd, hc⟩, by simp, ?_, ?_⟩
    · intro _
      simp only [connectPorts_append, connectPorts_closeIfOpen, connectPorts, List.nil_append,
        List.length_singleton]
    · refine ⟨if dataPort = 0 then toInt16 DOLPHIN_DATA_PORT else dataPort, [], ?_⟩
      simp only [closeIfOpen_trace, List.append_assoc, List.singleton_append]
  | false =>
    cases hk : S.SOCKET_FAILED clockOpen with
    | true =>
      have hco : GBASIODolphinConnect S dol dataPort clockPort dataOpen clockOpen
          = { dol := { dol with data := S.INVALID_SOCKET, clock := clockOpen },
              trace := (closeIfOpen S dol.data).2 ++ (closeIfOpen S dol.clock).2
                ++ [Event.connectTCP
                  (if dataPort = 0 then toInt16 DOLPHIN_DATA_PORT else dataPort)]
                ++ [Event.connectTCP
                  (if clockPort = 0 then toInt16 DOLPHIN_CLOCK_PORT else clockPort)]
                ++ [Event.close dataOpen],
              ret := false } := by
        simp [GBASIODolphinConnect, hd, hk]
      rw [hco]
      refine ⟨by simp, by simp, fun _ => ⟨hS, hk⟩, ?_, by simp, ?_⟩
      · intro _ _
        refine ⟨rfl, ?_⟩
        simp [closedSockets_append, closedSockets]
      · refine ⟨if dataPort = 0 then toInt16 DOLPHIN_DATA_PORT else dataPort,
          [Event.connectTCP (if clockPort = 0 then toInt16 DOLPHIN_CLOCK_PORT else clockPort),
            Event.close dataOpen], ?_⟩
        simp only [closeIfOpen_trace, List.append_assoc, List.singleton_append]
        rfl
    | false =>
      have hco : GBASIODolphinConnect S dol dataPort clockPort dataOpen clockOpen
          = { dol := { dol with data := dataOpen, clock := clockOpen },
              trace := (closeIfOpen S dol.data).2 ++ (closeIfOpen S dol.clock).2
                ++ [Event.connectTCP
                  (if dataPort = 0 then toInt16 DOLPHIN_DATA_PORT else dataPort)]
                ++ [Event.connectTCP
                  (if clockPort = 0 then toInt16 DOLPHIN_CLOCK_PORT else clockPort)]
                ++ [Event.setBlocking dataOpen false, Event.setBlocking clockOpen false,
                  Event.setTCPPush dataOpen true],
              ret := true } := by
        simp [GBASIODolphinConnect, hd, hk]
      rw [hco]
      refine ⟨by simp, fun _ => ⟨rfl, rfl, hd, hk⟩, by simp, by simp, by simp, ?_⟩
      refine ⟨if dataPort = 0 then toInt16 DOLPHIN_DATA_PORT else dataPort,
        [Event.connectTCP (if clockPort = 0 then toInt16 DOLPHIN_CLOCK_PORT else clockPort),
          Event.setBlocking dataOpen false, Event.setBlocking clockOpen false,
          Event.setTCPPush dataOpen true], ?_⟩
      simp only [closeIfOpen_trace, List.append_assoc, List.singleton_append]
      rfl

/-- Claim C14, instance: from connected sockets 3 and 4, a data open returning 5 and a
clock open returning -1 give false, close 3, 4 and then 5, and leave both channels
at -1. -/
theorem connect_all_or_nothing_witness :
    posixSockets.SOCKET_FAILED posixSockets.INVALID_SOCKET = true ∧
    posixSockets.SOCKET_FAILED 5 = false ∧ posixSockets.SOCKET_FAILED (-1) = true ∧
    (GBASIODolphinConnect posixSockets sampleDol 0 0 5 (-1)).dol.data = -1 ∧
    closedSockets (GBASIODolphinConnect posixSockets sampleDol 0 0 5 (-1)).trace = [3, 4, 5] ∧
    (GBASIODolphinConnect posixSockets sampleDol 0 0 5 (-1)).ret = false :=
  ⟨by decide, by decide, by decide,
    ((connect_all_or_nothing posixSockets sampleDol 0 0 5 (-1) (by decide)).2.2.2.1
      (by decide) (by decide)).1,
    ((connect_all_or_nothing posixSockets sampleDol 0 0 5 (-1) (by decide)).2.2.2.1
      (by decide) (by decide)).2,
    by decide⟩

/-- Claim C15.  In `GBASIODolphinConnect` the data channel is opened first and, when that
open succeeds, the clock channel second.  A port argument of 0 is replaced by the
default, so that the port opened is 54970 for the data channel and 49420 for the
clock channel; a non-zero port argument is handed to `SocketConnectTCP` exactly as
supplied.  (The default travels through the `short` parameter: its 16-bit pattern,
the port number, is the default's.) -/
theorem connect_default_ports (S : SocketLib) (dol : GBASIODolphin)
    (dataPort clockPort dataOpen clockOpen : Int) :
    connectPorts (GBASIODolphinConnect S dol dataPort clockPort dataOpen clockOpen).trace
      = (if dataPort = 0 then toInt16 DOLPHIN_DATA_PORT else dataPort)
        :: (if S.SOCKET_FAILED dataOpen = true then []
            else [if clockPort = 0 then toInt16 DOLPHIN_CLOCK_PORT else clockPort]) ∧
    (connectPorts (GBASIODolphinConnect S dol dataPort clockPort dataOpen clockOpen).trace).map
        portNumber
      = (if dataPort = 0 then 54970 else portNumber dataPort)
        :: (if S.SOCKET_FAILED dataOpen = true then []
            else [if clockPort = 0 then 49420 else portNumber clockPort]) ∧
    portNumber (toInt16 DOLPHIN_DATA_PORT) = 54970 ∧
    portNumber (toInt16 DOLPHIN_CLOCK_PORT) = 49420 ∧
    (connectPorts (GBASIODolphinConnect posixSockets sampleDol 0 0 5 6).trace).map portNumber
      = [54970, 49420] ∧
    connectPorts (GBASIODolphinConnect posixSockets sampleDol 1234 5678 5 6).trace
      = [1234, 5678] := by
  have hd : portNumber (toInt16 DOLPHIN_DATA_PORT) = 54970 := by decide
  have hc : portNumber (toInt16 DOLPHIN_CLOCK_PORT) = 49420 := by decide
  have hports : connectPorts
      (GBASIODolphinConnect S dol dataPort clockPort dataOpen clockOpen).trace
      = (if dataPort = 0 then toInt16 DOLPHIN_DATA_PORT else dataPort)
        :: (if S.SOCKET_FAILED dataOpen = true then []
            else [if clockPort = 0 then toInt16 DOLPHIN_CLOCK_PORT else clockPort]) := by
    unfold GBASIODolphinConnect
    simp only
    cases h1 : S.SOCKET_FAILED dataOpen with
    | true =>
      simp [connectPorts_append, connectPorts_closeIfOpen, connectPorts]
    | false =>
      cases h2 : S.SOCKET_FAILED clockOpen <;>
        simp [connectPorts_append, connectPorts_closeIfOpen, connectPorts]
  refine ⟨hports, ?_, hd, hc, by decide, by decide⟩
  rw [hports]
  by_cases h0 : dataPort = 0 <;> by_cases h1 : S.SOCKET_FAILED dataOpen = true <;>
    by_cases h2 : clockPort = 0 <;> simp [h0, h1, h2, hd, hc]

/-! ## Sticky event flags -/

theorem processEvents_joycnt_or (R : RegMap) (dol : GBASIODolphin) (cycles : Int) (env : Env)
    (hR : R.Distinct) (hp : dol.io R.joycnt < 65536) :
    ∃ m, m < 8 ∧ (GBASIODolphinProcessEvents R dol cycles env).dol.io R.joycnt
      = dol.io R.joycnt ||| m := by
  by_cases h : 0 < wrap32 (dol.nextEvent - cycles)
  · rw [processEvents_early R dol cycles env h]
    exact ⟨0, by norm_num, by simp⟩
  · obtain ⟨-, -, -, -, -, hio, -⟩ := processEvents_due R dol cycles env (not_lt.mp h)
    rw [hio]
    cases env.commandBytes with
    | nil => exact ⟨0, by norm_num, by simp⟩
    | cons cmd rest => exact processCommand_joycnt_or R dol (u8 cmd) _ _ hR hp

theorem runEvents_joycnt_sticky (R : RegMap) (calls : List (Int × Env)) (hR : R.Distinct) :
    ∀ dol : GBASIODolphin, dol.io R.joycnt < 65536 → ∀ o ∈ runEvents R dol calls, ∀ i,
      (dol.io R.joycnt).testBit i = true → (o.dol.io R.joycnt).testBit i = true := by
  induction calls with
  | nil => intro dol _ o ho; simp [runEvents] at ho
  | cons c rest ih =>
    intro dol hp o ho i hi
    obtain ⟨cycles, env⟩ := c
    obtain ⟨m, hm, hio⟩ := processEvents_joycnt_or R dol cycles env hR hp
    have hbit : ((GBASIODolphinProcessEvents R dol cycles env).dol.io R.joycnt).testBit i
        = true := by
      rw [hio, Nat.testBit_or, hi]
      rfl
    have hlt : (GBASIODolphinProcessEvents R dol cycles env).dol.io R.joycnt < 65536 := by
      have h16 : (65536 : Nat) = 2 ^ 16 := by norm_num
      rw [hio, h16]
      exact Nat.or_lt_two_pow (by rw [← h16]; exact hp) (by omega)
    simp only [runEvents, List.mem_cons] at ho
    rcases ho with rfl | ho
    · exact hbit
    · exact ih _ hlt o ho i hbit

/-- Claim C20.  For every command byte, a dispatch never clears a bit of JOYCNT and
changes JOYCNT only within bits 0 to 2 (bit 6 and every higher bit stay); it does
not modify JOY_TRANS_LO or JOY_TRANS_HI; and every halfword other than JOYCNT,
JOYSTAT, JOY_RECV_LO and JOY_RECV_HI is left as it was.  Hence over any sequence of
`GBASIODolphinProcessEvents` calls a bit that is set in JOYCNT stays set. -/
theorem processCommand_sticky (R : RegMap) (dol : GBASIODolphin) (command : Nat)
    (buffer0 : Nat → Nat) (payload : List Nat) (hR : R.Distinct)
    (hp : dol.io R.joycnt < 65536) :
    (∀ i, (dol.io R.joycnt).testBit i = true →
      ((_processCommand R dol command buffer0 payload).dol.io R.joycnt).testBit i = true) ∧
    (∀ i, 3 ≤ i → ((_processCommand R dol command buffer0 payload).dol.io R.joycnt).testBit i
      = (dol.io R.joycnt).testBit i) ∧
    ((_processCommand R dol command buffer0 payload).dol.io R.joycnt).testBit 6
      = (dol.io R.joycnt).testBit 6 ∧
    (_processCommand R dol command buffer0 payload).dol.io R.transLo = dol.io R.transLo ∧
    (_processCommand R dol command buffer0 payload).dol.io R.transHi = dol.io R.transHi ∧
    (∀ j, j ≠ R.joycnt → j ≠ R.joystat → j ≠ R.recvLo → j ≠ R.recvHi →
      (_processCommand R dol command buffer0 payload).dol.io j = dol.io j) ∧
    (∀ calls : List (Int × Env), ∀ o ∈ runEvents R dol calls, ∀ i,
      (dol.io R.joycnt).testBit i = true → (o.dol.io R.joycnt).testBit i = true) := by
  obtain ⟨m, hm, hio⟩ := processCommand_joycnt_or R dol command buffer0 payload hR hp
  obtain ⟨⟨-, -, c3, c4, -⟩, ⟨-, l2, l3, -⟩, ⟨r1, r2, -⟩, ⟨-, t2⟩, t3⟩ := hR.pairs
  have hhigh : ∀ i, 3 ≤ i → m.testBit i = false := by
    intro i hi
    apply Nat.testBit_lt_two_pow
    calc m < 2 ^ 3 := by simpa using hm
      _ ≤ 2 ^ i := Nat.pow_le_pow_right (by norm_num) hi
  refine ⟨?_, ?_, ?_, ?_, ?_, ?_, fun calls => runEvents_joycnt_sticky R calls hR dol hp⟩
  · intro i hi
    rw [hio, Nat.testBit_or, hi]
    rfl
  · intro i hi
    rw [hio, Nat.testBit_or, hhigh i hi]
    simp
  · rw [hio, Nat.testBit_or, hhigh 6 (by norm_num)]
    simp
  · exact processCommand_io_other R dol command buffer0 payload _ (Ne.symm c3) t2
      (Ne.symm l2) (Ne.symm r1)
  · exact processCommand_io_other R dol command buffer0 payload _ (Ne.symm c4) t3
      (Ne.symm l3) (Ne.symm r2)
  · intro j h1 h2 h3 h4
    exact processCommand_io_other R dol command buffer0 payload j h1 h2 h3 h4

/-- Claim C20, instance: a Recv dispatch on JOYCNT = 0x47 keeps bit 6 and the
transmit registers. -/
theorem processCommand_sticky_witness :
    gbaRegs.Distinct ∧ sampleDol.io gbaRegs.joycnt < 65536 ∧
    ((_processCommand gbaRegs sampleDol 0x15 (fun _ => 0) []).dol.io gbaRegs.joycnt).testBit 6
      = (sampleDol.io gbaRegs.joycnt).testBit 6 ∧
    (_processCommand gbaRegs sampleDol 0x15 (fun _ => 0) []).dol.io gbaRegs.transLo
      = sampleDol.io gbaRegs.transLo :=
  ⟨by decide, by decide,
    (processCommand_sticky gbaRegs sampleDol 0x15 (fun _ => 0) [] (by decide) (by decide)).2.2.1,
    (processCommand_sticky gbaRegs sampleDol 0x15 (fun _ => 0) [] (by decide)
      (by decide)).2.2.2.1⟩

end Dolphin
